import Mathlib

/-!
# WiFi credential service: QR payload encoder, credential cipher, access service

A shallow embedding of the Go packages `models`, `repositories` and `services`
of the WiFi QR-code backend, followed by theorems about them.

Conventions of the embedding

* A Go `string` is a Lean `String`: a sequence of Unicode scalar values, which
  is what `for _, char := range s` iterates over for well-formed UTF-8 text
  (request strings come out of the JSON decoder, which only yields such text).
* A Go `[]byte` is a `List Byte` with `Byte := Fin 256`.
* A Go `(T, error)` result is an `Except Err T`.
-/

/-- A Go `byte`. -/
abbrev Byte := Fin 256

/-- A Go `uuid.UUID`, kept abstract as a number; `uuid.Nil` is `0`. -/
abbrev UUID := Nat

/-- Go `uuid.Nil`. -/
def uuidNil : UUID := 0

/-- Go `error` values that the modelled packages create or pass on. -/
inductive Err where
  /-- Package variable `services.ErrWifiNotFound`. -/
  | ErrWifiNotFound
  /-- Package variable `services.ErrUnauthorizedAccess`. -/
  | ErrUnauthorizedAccess
  /-- Package variable `gorm.ErrRecordNotFound`. -/
  | ErrRecordNotFound
  /-- Result of `errors.New(text)`. -/
  | New (text : String)
  /-- Result of `fmt.Errorf` without a wrapped error; `text` is the formatted message. -/
  | Errorf (text : String)
  /-- Result of `fmt.Errorf(text + ": %w", err)`. -/
  | Wrap (text : String) (err : Err)
  /-- An error produced inside a library (database driver, `crypto`, `base64`, `io`,
  QR encoder). -/
  | External (text : String)
  deriving DecidableEq

/-- Equality of results is decidable, so that concrete runs can be evaluated. -/
instance instDecidableEqExcept {ε α : Type} [DecidableEq ε] [DecidableEq α] :
    DecidableEq (Except ε α)
  | .ok a, .ok b => if h : a = b then isTrue (by rw [h]) else isFalse (fun h2 => h (by cases h2; rfl))
  | .error a, .error b =>
    if h : a = b then isTrue (by rw [h]) else isFalse (fun h2 => h (by cases h2; rfl))
  | .ok _, .error _ => isFalse (fun h => by cases h)
  | .error _, .ok _ => isFalse (fun h => by cases h)

/-! ## Go conversions between `string` and `[]byte` (UTF-8) -/

/-- UTF-8 bytes of one rune. -/
def utf8EncodeRune (c : Char) : List Byte :=
  let v := c.toNat
  if v < 0x80 then
    [Fin.ofNat v]
  else if v < 0x800 then
    [Fin.ofNat (0xC0 + v / 64), Fin.ofNat (0x80 + v % 64)]
  else if v < 0x10000 then
    [Fin.ofNat (0xE0 + v / 4096), Fin.ofNat (0x80 + v / 64 % 64), Fin.ofNat (0x80 + v % 64)]
  else
    [Fin.ofNat (0xF0 + v / 262144), Fin.ofNat (0x80 + v / 4096 % 64),
      Fin.ofNat (0x80 + v / 64 % 64), Fin.ofNat (0x80 + v % 64)]

/-- Go `[]byte(s)`: the UTF-8 bytes of the text. -/
def stringToBytes (s : String) : List Byte :=
  s.data.flatMap utf8EncodeRune

/-- Runes of a UTF-8 byte sequence, read byte by byte: `need` is the number of
continuation bytes the current rune still lacks and `acc` the bits gathered for
it. This is the inverse of `stringToBytes` on the bytes of a text. Go keeps bytes
that do not form a well-formed sequence as they are; a Lean `String` cannot hold
them, so on such bytes the result stands for no Go string and nothing below is
stated about it. -/
def utf8DecodeRunes : List Byte → Nat → Nat → List Char
  | [], need, _ => if need = 0 then [] else [Char.ofNat 0xFFFD]
  | b :: bs, need, acc =>
    if need = 0 then
      if b.val < 0x80 then
        Char.ofNat b.val :: utf8DecodeRunes bs 0 0
      else if b.val < 0xC0 then
        Char.ofNat 0xFFFD :: utf8DecodeRunes bs 0 0
      else if b.val < 0xE0 then
        utf8DecodeRunes bs 1 (b.val - 0xC0)
      else if b.val < 0xF0 then
        utf8DecodeRunes bs 2 (b.val - 0xE0)
      else
        utf8DecodeRunes bs 3 (b.val - 0xF0)
    else if need = 1 then
      Char.ofNat (acc * 64 + b.val % 64) :: utf8DecodeRunes bs 0 0
    else
      utf8DecodeRunes bs (need - 1) (acc * 64 + b.val % 64)

/-- Go `string(b)` for a byte slice `b` that holds well-formed UTF-8. -/
def bytesToString (b : List Byte) : String :=
  ⟨utf8DecodeRunes b 0 0⟩

/-! ## Go `encoding/base64`, `StdEncoding` -/

namespace base64

/-- The standard alphabet `encodeStd`. -/
def encodeStd : String :=
  "ABCDEFGHIJKLMNOPQRSTUVWXYZabcdefghijklmnopqrstuvwxyz0123456789+/"

/-- Table lookup `enc.encode[i]`. -/
def encodeChar (i : Nat) : Char :=
  encodeStd.data.getD i 'A'

/-- Table lookup `enc.decodeMap[c]`; `none` stands for the entry `0xff`. -/
def decodeMap (c : Char) : Option Nat :=
  let i := encodeStd.data.indexOf c
  if i < 64 then some i else none

/-- Go `(*Encoding).Encode` for the padded standard encoding: three bytes give
four characters, and a remainder of one or two bytes is padded with `=`. -/
def encode : List Byte → List Char
  | a :: b :: c :: rest =>
    let val := a.val * 65536 + b.val * 256 + c.val
    encodeChar (val / 262144 % 64) :: encodeChar (val / 4096 % 64) ::
      encodeChar (val / 64 % 64) :: encodeChar (val % 64) :: encode rest
  | [a, b] =>
    let val := a.val * 65536 + b.val * 256
    [encodeChar (val / 262144 % 64), encodeChar (val / 4096 % 64),
      encodeChar (val / 64 % 64), '=']
  | [a] =>
    let val := a.val * 65536
    [encodeChar (val / 262144 % 64), encodeChar (val / 4096 % 64), '=', '=']
  | [] => []

/-- Go `(*Encoding).EncodeToString`. -/
def EncodeToString (src : List Byte) : String :=
  ⟨encode src⟩

/-- The bytes a quantum of `dbuf.length` six-bit values yields: one byte less
than the number of values read. -/
def quantumBytes (dbuf : List Nat) : List Byte :=
  let val := dbuf.getD 0 0 * 262144 + dbuf.getD 1 0 * 4096 + dbuf.getD 2 0 * 64 + dbuf.getD 3 0
  ([val / 65536 % 256, val / 256 % 256, val % 256].map Fin.ofNat).take (dbuf.length - 1)

/-- The loops `for si < len(src) && (src[si] == '\n' || src[si] == '\r')`. -/
def skipNewlines : List Char → List Char
  | [] => []
  | c :: rest => if c = '\n' ∨ c = '\r' then skipNewlines rest else c :: rest

/-- Go `(*Encoding).Decode` with `decodeQuantum` (non-strict, padded): `src` is the
input still to read, `dbuf` the six-bit values of the current quantum, `dst` the
bytes decoded so far. Line breaks are skipped; padding must close the input. -/
def decodeLoop : List Char → List Nat → List Byte → Except Err (List Byte)
  | [], dbuf, dst =>
    if dbuf.length = 0 then .ok dst else .error (.External "illegal base64 data")
  | c :: src, dbuf, dst =>
    match decodeMap c with
    | some out =>
      if dbuf.length = 3 then
        decodeLoop src [] (dst ++ quantumBytes (dbuf ++ [out]))
      else
        decodeLoop src (dbuf ++ [out]) dst
    | none =>
      if c = '\n' ∨ c = '\r' then
        decodeLoop src dbuf dst
      else if c ≠ '=' then
        .error (.External "illegal base64 data")
      else if dbuf.length < 2 then
        .error (.External "illegal base64 data")
      else if dbuf.length = 2 then
        match skipNewlines src with
        | [] => .error (.External "illegal base64 data")
        | c2 :: src2 =>
          if c2 ≠ '=' then
            .error (.External "illegal base64 data")
          else if skipNewlines src2 = [] then
            .ok (dst ++ quantumBytes dbuf)
          else
            .error (.External "illegal base64 data")
      else if skipNewlines src = [] then
        .ok (dst ++ quantumBytes dbuf)
      else
        .error (.External "illegal base64 data")

/-- Go `(*Encoding).DecodeString`. -/
def DecodeString (s : String) : Except Err (List Byte) :=
  decodeLoop s.data [] []

end base64

namespace models

/-- Go `type SecurityType string`. -/
abbrev SecurityType := String

def SecurityWPA : SecurityType := "WPA"
def SecurityWPA2 : SecurityType := "WPA2"
def SecurityWEP : SecurityType := "WEP"
def SecurityNone : SecurityType := "nopass"

/-- Go `IsValidSecurityType`: a switch over the four constants. -/
def IsValidSecurityType (st : String) : Bool :=
  if st = SecurityWPA ∨ st = SecurityWPA2 ∨ st = SecurityWEP ∨ st = SecurityNone then
    true
  else
    false

/-- Go `WifiCredential`; times are instants counted as numbers. The association
pointer `User` is left out: it is nil on every path modelled here. -/
structure WifiCredential where
  ID : UUID
  UserID : UUID
  SSID : String
  EncryptedPassword : String
  SecurityType : SecurityType
  IsHidden : Bool
  QRCodeData : String
  CreatedAt : Nat
  UpdatedAt : Nat
  deriving DecidableEq

/-- Go `PublicWifiCredential`. -/
structure PublicWifiCredential where
  ID : UUID
  UserID : UUID
  SSID : String
  SecurityType : SecurityType
  IsHidden : Bool
  QRCodeData : String
  CreatedAt : Nat
  UpdatedAt : Nat
  deriving DecidableEq

/-- Go `(*WifiCredential).ToPublic`. -/
def WifiCredential.ToPublic (w : WifiCredential) : PublicWifiCredential :=
  { ID := w.ID
    UserID := w.UserID
    SSID := w.SSID
    SecurityType := w.SecurityType
    IsHidden := w.IsHidden
    QRCodeData := w.QRCodeData
    CreatedAt := w.CreatedAt
    UpdatedAt := w.UpdatedAt }

end models

/-! ## The environment of a request -/

/-- Calls recorded in the order in which they are made. -/
inductive Call where
  | repoCreate
  | repoFindByID (id : UUID)
  | repoDelete (id : UUID)
  | repoFindByUserID (userID : UUID)
  | encryptPassword
  | DecryptPassword
  | randRead (n : Nat)
  | GenerateWiFiQRCode
  deriving DecidableEq

/-- Everything a request can read or change outside its arguments. -/
structure World where
  /-- Rows of table `wifi_qr_codes`. -/
  rows : List models.WifiCredential
  /-- The failure the database connection reports on its next statements, if any. -/
  dbErr : Option String
  /-- Bytes that `crypto/rand.Reader` delivers next. -/
  rand : List Byte
  /-- Values of the successive `uuid.New()` calls. -/
  uuids : Nat → UUID
  /-- Number of `uuid.New()` calls made so far. -/
  uuidsDrawn : Nat
  /-- Instant the database clock shows. -/
  now : Nat
  /-- Calls made so far, oldest first. -/
  trace : List Call

/-- The primary key of the table: no two rows share an id. -/
def World.UniqueIDs (w : World) : Prop :=
  (w.rows.map fun row => row.ID).Nodup

/-- Record one call. -/
def World.log (w : World) (c : Call) : World :=
  { w with trace := w.trace ++ [c] }

/-- Go `uuid.New()`. -/
def uuidNew (w : World) : UUID × World :=
  (w.uuids w.uuidsDrawn, { w with uuidsDrawn := w.uuidsDrawn + 1 })

/-- Go `io.ReadFull(rand.Reader, buf)` with `len(buf) = n`: exactly `n` bytes, or an
error when the reader ends early. -/
def readFull (w : World) (n : Nat) : Except Err (List Byte) × World :=
  let w := w.log (.randRead n)
  if n ≤ w.rand.length then
    (.ok (w.rand.take n), { w with rand := w.rand.drop n })
  else
    (.error (.External "unexpected EOF"), { w with rand := [] })

/-- Libraries whose code is outside the repository and that are taken as given. -/
structure Lib where
  /-- AES-GCM sealing under a key: `gcm.Seal(nil, nonce, plaintext, nil)`, the
  ciphertext followed by the authentication tag. -/
  gcmSeal : (key nonce plaintext : List Byte) → List Byte
  /-- AES-GCM opening under a key: `gcm.Open(nil, nonce, ciphertext, nil)`; `none`
  when authentication fails. -/
  gcmOpen : (key nonce ciphertext : List Byte) → Option (List Byte)
  /-- PNG rendering `qrcode.Encode(content, qrcode.Medium, 256)`; `none` when the
  content cannot be encoded. -/
  qrEncode : (content : String) → Option (List Byte)

/-- What AES-GCM guarantees: opening what was sealed under the same key and nonce
gives the plaintext back. -/
def Lib.Sound (L : Lib) : Prop :=
  ∀ key nonce plaintext : List Byte,
    (key.length = 16 ∨ key.length = 24 ∨ key.length = 32) → nonce.length = 12 →
      L.gcmOpen key nonce (L.gcmSeal key nonce plaintext) = some plaintext

/-! ## Go `crypto/aes` and `crypto/cipher` -/

/-- Go `cipher.Block` made by `aes.NewCipher`. -/
structure Block where
  key : List Byte

/-- Go `aes.NewCipher`: the key must have 16, 24 or 32 bytes. -/
def aesNewCipher (key : List Byte) : Except Err Block :=
  if key.length = 16 ∨ key.length = 24 ∨ key.length = 32 then
    .ok { key := key }
  else
    .error (.External "crypto/aes: invalid key size")

/-- Go `cipher.AEAD` made by `cipher.NewGCM`. -/
structure GCM where
  key : List Byte

/-- Go `cipher.NewGCM`: it rejects only ciphers whose block size is not 16 bytes,
which an AES block never is. -/
def cipherNewGCM (block : Block) : Except Err GCM :=
  .ok { key := block.key }

/-- Go `gcm.NonceSize()`: the standard nonce length. -/
def GCM.NonceSize (_gcm : GCM) : Nat := 12

/-- Go `gcm.Seal(dst, nonce, plaintext, nil)`: the sealed text is appended to `dst`. -/
def GCM.Seal (L : Lib) (gcm : GCM) (dst nonce plaintext : List Byte) : List Byte :=
  dst ++ L.gcmSeal gcm.key nonce plaintext

/-- Go `gcm.Open(nil, nonce, ciphertext, nil)`. -/
def GCM.Open (L : Lib) (gcm : GCM) (nonce ciphertext : List Byte) : Except Err (List Byte) :=
  match L.gcmOpen gcm.key nonce ciphertext with
  | some plaintext => .ok plaintext
  | none => .error (.External "cipher: message authentication failed")

/-! ## Package `repositories` -/

namespace repositories

open models

/-- Go `r.db.Create(credential)`: the hook `BeforeCreate` gives a nil id a new UUID,
creation and update times that are still zero are set, and the row is inserted; the primary key
admits no second row with the same id. -/
def dbCreate (w : World) (credential : WifiCredential) : Except Err WifiCredential × World :=
  let (id, w) :=
    if credential.ID = uuidNil then uuidNew w else (credential.ID, w)
  let credential :=
    { credential with
      ID := id
      CreatedAt := if credential.CreatedAt = 0 then w.now else credential.CreatedAt
      UpdatedAt := if credential.UpdatedAt = 0 then w.now else credential.UpdatedAt }
  match w.dbErr with
  | some e => (.error (.External e), w)
  | none =>
    if w.rows.any (fun row => row.ID = credential.ID) then
      (.error (.External "duplicate key value violates unique constraint"), w)
    else
      (.ok credential, { w with rows := w.rows ++ [credential] })

/-- Go `(*WifiRepository).Create`; the credential handed back is the one the
caller's pointer refers to after the insert. -/
def WifiRepository.Create (w : World) (credential : WifiCredential) :
    Except Err WifiCredential × World :=
  match dbCreate (w.log .repoCreate) credential with
  | (.error err, w) => (.error (.Wrap "failed to create WiFi credential" err), w)
  | (.ok credential, w) => (.ok credential, w)

/-- Go `r.db.First(&credential, "id = ?", id).Error` together with the row read. -/
def dbFirst (w : World) (id : UUID) : Except Err WifiCredential :=
  match w.dbErr with
  | some e => .error (.External e)
  | none =>
    match w.rows.find? (fun row => row.ID = id) with
    | some credential => .ok credential
    | none => .error .ErrRecordNotFound

/-- Go `(*WifiRepository).FindByID`; `none` is the nil pointer. -/
def WifiRepository.FindByID (w : World) (id : UUID) :
    Except Err (Option WifiCredential) × World :=
  let w := w.log (.repoFindByID id)
  match dbFirst w id with
  | .error err =>
    if err = .ErrRecordNotFound then
      (.ok none, w)
    else
      (.error (.Wrap "failed to find WiFi credential by ID" err), w)
  | .ok credential => (.ok (some credential), w)

/-- Go `r.db.Delete(&models.WifiCredential{}, "id = ?", id)`: the error, if any,
and `RowsAffected`. -/
def dbDelete (w : World) (id : UUID) : (Option Err × Nat) × World :=
  match w.dbErr with
  | some e => ((some (.External e), 0), w)
  | none =>
    ((none, w.rows.countP (fun row => row.ID = id)),
      { w with rows := w.rows.filter (fun row => ¬ row.ID = id) })

/-- Go `(*WifiRepository).Delete`; `none` is the nil error. -/
def WifiRepository.Delete (w : World) (id : UUID) : Option Err × World :=
  match dbDelete (w.log (.repoDelete id)) id with
  | ((some err, _), w) => (some (.Wrap "failed to delete WiFi credential" err), w)
  | ((none, rowsAffected), w) =>
    if rowsAffected = 0 then (some .ErrRecordNotFound, w) else (none, w)

/-- The order `created_at DESC`: `a` may come before `b`. -/
def createdAtDesc (a b : WifiCredential) : Prop :=
  b.CreatedAt ≤ a.CreatedAt

/-- The order `created_at DESC` can be checked. -/
instance instDecidableCreatedAtDesc : DecidableRel createdAtDesc :=
  fun a b => inferInstanceAs (Decidable (b.CreatedAt ≤ a.CreatedAt))

/-- Go `r.db.Where("user_id = ?", userID).Order("created_at DESC").Find(&credentials)`:
the rows of the user, latest first. The database is free in how it places rows of
equal creation time; here they keep the order of the table. -/
def dbFindWhereUserID (w : World) (userID : UUID) : Except Err (List WifiCredential) :=
  match w.dbErr with
  | some e => .error (.External e)
  | none => .ok ((w.rows.filter (fun row => row.UserID = userID)).insertionSort createdAtDesc)

/-- Go `(*WifiRepository).FindByUserID`. -/
def WifiRepository.FindByUserID (w : World) (userID : UUID) :
    Except Err (List WifiCredential) × World :=
  let w := w.log (.repoFindByUserID userID)
  match dbFindWhereUserID w userID with
  | .error err => (.error (.Wrap "failed to find WiFi credentials by user ID" err), w)
  | .ok credentials => (.ok credentials, w)

end repositories

namespace services

open models

/-- Go `escapeWiFiString`: the loop `for _, char := range s` with the
accumulator `result`, which starts empty and grows by `+=`. -/
def escapeWiFiString (s : String) : String :=
  s.data.foldl
    (fun result char =>
      if char = '\\' ∨ char = ';' ∨ char = ',' ∨ char = ':' ∨ char = '"' then
        result ++ ("\\" ++ String.singleton char)
      else
        result ++ String.singleton char)
    ""

/-- Go `(*QRCodeService).buildWiFiString`; `fmt.Sprintf` with four `%s` verbs
is the concatenation of the literal pieces and the arguments. -/
def buildWiFiString (ssid : String) (password : String) (security : SecurityType)
    (hidden : Bool) : String :=
  let escapedSSID := escapeWiFiString ssid
  let escapedPassword := escapeWiFiString password
  let hiddenFlag := if hidden then "true" else ""
  let securityStr := security
  let (securityStr, escapedPassword) :=
    if security = SecurityNone then ("nopass", "") else (securityStr, escapedPassword)
  "WIFI:T:" ++ securityStr ++ ";S:" ++ escapedSSID ++ ";P:" ++ escapedPassword ++ ";H:" ++
    hiddenFlag ++ ";;"

/-- The escaping in the words of the specification: each of the characters
`\ ; , : "` is replaced by a backslash followed by that character, and every other
character is copied, in order. -/
def specEscape (s : String) : String :=
  ⟨s.data.flatMap fun c => if c ∈ ['\\', ';', ',', ':', '"'] then ['\\', c] else [c]⟩

/-- Reading an escaped text back: a backslash is dropped and the character after
it is taken as it stands. -/
def unescapeRunes : List Char → List Char
  | [] => []
  | c :: rest =>
    if c = '\\' then
      match rest with
      | d :: rest2 => d :: unescapeRunes rest2
      | [] => [c]
    else
      c :: unescapeRunes rest

/-- The inverse reading of `escapeWiFiString` on texts. -/
def unescape (s : String) : String :=
  ⟨unescapeRunes s.data⟩

/-- Go `(*QRCodeService).GenerateWiFiQRCode`. -/
def GenerateWiFiQRCode (L : Lib) (w : World) (ssid : String) (password : String)
    (security : SecurityType) (hidden : Bool) : Except Err String × World :=
  let w := w.log .GenerateWiFiQRCode
  let wifiString := buildWiFiString ssid password security hidden
  match L.qrEncode wifiString with
  | none => (.error (.Wrap "failed to generate QR code" (.External "qrcode: encode")), w)
  | some pngBytes =>
    let base64String := base64.EncodeToString pngBytes
    (.ok base64String, w)

/-- Go `WifiService`; the repository handle is the table in the `World`. -/
structure WifiService where
  encryptionKey : List Byte
  deriving DecidableEq

/-- Go `NewWifiService`. -/
def NewWifiService (encryptionKey : String) : WifiService :=
  { encryptionKey := stringToBytes encryptionKey }

/-- Go `CreateWifiRequest`. -/
structure CreateWifiRequest where
  SSID : String
  Password : String
  SecurityType : SecurityType
  IsHidden : Bool
  deriving DecidableEq

/-- Go `(*WifiService).encryptPassword`. -/
def WifiService.encryptPassword (L : Lib) (s : WifiService) (w : World) (password : String) :
    Except Err String × World :=
  let w := w.log .encryptPassword
  if password = "" then
    (.ok "", w)
  else
    match aesNewCipher s.encryptionKey with
    | .error err => (.error (.Wrap "failed to create cipher" err), w)
    | .ok block =>
      match cipherNewGCM block with
      | .error err => (.error (.Wrap "failed to create GCM" err), w)
      | .ok gcm =>
        match readFull w gcm.NonceSize with
        | (.error err, w) => (.error (.Wrap "failed to generate nonce" err), w)
        | (.ok nonce, w) =>
          let ciphertext := gcm.Seal L nonce nonce (stringToBytes password)
          (.ok (base64.EncodeToString ciphertext), w)

/-- Go `(*WifiService).DecryptPassword`. -/
def WifiService.DecryptPassword (L : Lib) (s : WifiService) (w : World)
    (encryptedPassword : String) : Except Err String × World :=
  let w := w.log .DecryptPassword
  if encryptedPassword = "" then
    (.ok "", w)
  else
    match base64.DecodeString encryptedPassword with
    | .error err => (.error (.Wrap "failed to decode base64" err), w)
    | .ok ciphertext =>
      match aesNewCipher s.encryptionKey with
      | .error err => (.error (.Wrap "failed to create cipher" err), w)
      | .ok block =>
        match cipherNewGCM block with
        | .error err => (.error (.Wrap "failed to create GCM" err), w)
        | .ok gcm =>
          let nonceSize := gcm.NonceSize
          if ciphertext.length < nonceSize then
            (.error (.New "ciphertext too short"), w)
          else
            let nonce := ciphertext.take nonceSize
            let ciphertext := ciphertext.drop nonceSize
            match gcm.Open L nonce ciphertext with
            | .error err => (.error (.Wrap "failed to decrypt" err), w)
            | .ok plaintext => (.ok (bytesToString plaintext), w)

/-- Go `(*WifiService).Create`. -/
def WifiService.Create (L : Lib) (s : WifiService) (w : World) (userID : UUID)
    (req : CreateWifiRequest) : Except Err WifiCredential × World :=
  if ¬ IsValidSecurityType req.SecurityType then
    (.error (.Errorf ("invalid security type: " ++ req.SecurityType)), w)
  else if req.SecurityType ≠ SecurityNone ∧ req.Password = "" then
    (.error (.New "password is required for secured networks"), w)
  else
    match s.encryptPassword L w req.Password with
    | (.error err, w) => (.error (.Wrap "failed to encrypt password" err), w)
    | (.ok encryptedPassword, w) =>
      match GenerateWiFiQRCode L w req.SSID req.Password req.SecurityType req.IsHidden with
      | (.error err, w) => (.error (.Wrap "failed to generate QR code" err), w)
      | (.ok qrCodeData, w) =>
        let credential : WifiCredential :=
          { ID := uuidNil
            UserID := userID
            SSID := req.SSID
            EncryptedPassword := encryptedPassword
            SecurityType := req.SecurityType
            IsHidden := req.IsHidden
            QRCodeData := qrCodeData
            CreatedAt := 0
            UpdatedAt := 0 }
        match repositories.WifiRepository.Create w credential with
        | (.error err, w) => (.error (.Wrap "failed to create WiFi credential" err), w)
        | (.ok credential, w) => (.ok credential, w)

/-- Go `(*WifiService).GetByID`. -/
def WifiService.GetByID (_s : WifiService) (w : World) (id : UUID) (userID : UUID)
    (isAdmin : Bool) : Except Err WifiCredential × World :=
  match repositories.WifiRepository.FindByID w id with
  | (.error err, w) => (.error (.Wrap "failed to get WiFi credential" err), w)
  | (.ok none, w) => (.error .ErrWifiNotFound, w)
  | (.ok (some credential), w) =>
    if ¬ isAdmin ∧ credential.UserID ≠ userID then
      (.error .ErrUnauthorizedAccess, w)
    else
      (.ok credential, w)

/-- Go `(*WifiService).Delete`; `none` is the nil error. -/
def WifiService.Delete (_s : WifiService) (w : World) (id : UUID) (userID : UUID)
    (isAdmin : Bool) : Option Err × World :=
  match repositories.WifiRepository.FindByID w id with
  | (.error err, w) => (some (.Wrap "failed to get WiFi credential" err), w)
  | (.ok none, w) => (some .ErrWifiNotFound, w)
  | (.ok (some credential), w) =>
    if ¬ isAdmin ∧ credential.UserID ≠ userID then
      (some .ErrUnauthorizedAccess, w)
    else
      match repositories.WifiRepository.Delete w id with
      | (some err, w) => (some (.Wrap "failed to delete WiFi credential" err), w)
      | (none, w) => (none, w)

/-- Go `(*WifiService).GetAllByUser`. -/
def WifiService.GetAllByUser (_s : WifiService) (w : World) (userID : UUID) :
    Except Err (List WifiCredential) × World :=
  match repositories.WifiRepository.FindByUserID w userID with
  | (.error err, w) => (.error (.Wrap "failed to get WiFi credentials" err), w)
  | (.ok credentials, w) => (.ok credentials, w)

/-- A sequence of `Create` calls, each by its own owner, run one after the other. -/
def createAll (L : Lib) (s : WifiService) : World → List (UUID × CreateWifiRequest) → World
  | w, [] => w
  | w, (ownerID, req) :: rest => createAll L s (s.Create L w ownerID req).2 rest

end services

/-! ## Package `config` and the wiring in `routes` -/

namespace config

/-- Go `Config`. -/
structure Config where
  DBHost : String
  DBPort : String
  DBUser : String
  DBPassword : String
  DBName : String
  DBSSLMode : String
  JWTSecret : String
  EncryptionKey : String
  Port : String
  FrontendURL : String
  GinMode : String
  LogLevel : String
  AllowedOrigins : List String

/-- Go `len(s)` of a string: its number of bytes. -/
def len (s : String) : Nat :=
  (stringToBytes s).length

/-- Go `getEnv`; `env` is `os.Getenv`, empty for a variable that is not set. -/
def getEnv (env : String → String) (key defaultValue : String) : String :=
  let value := env key
  if value = "" then defaultValue else value

/-- Go `unicode.IsSpace`. -/
def isSpace (c : Char) : Bool :=
  c = '\t' ∨ c = '\n' ∨ c.toNat = 0x0B ∨ c.toNat = 0x0C ∨ c = '\r' ∨ c = ' ' ∨
    c.toNat = 0x85 ∨ c.toNat = 0xA0 ∨ c.toNat = 0x1680 ∨
    (0x2000 ≤ c.toNat ∧ c.toNat ≤ 0x200A) ∨ c.toNat = 0x2028 ∨ c.toNat = 0x2029 ∨
    c.toNat = 0x202F ∨ c.toNat = 0x205F ∨ c.toNat = 0x3000

/-- Go `strings.TrimSpace`. -/
def TrimSpace (s : String) : String :=
  ⟨((s.data.dropWhile isSpace).reverse.dropWhile isSpace).reverse⟩

/-- Go `strings.Split(s, ",")` on the characters of `s`. -/
def splitComma : List Char → List (List Char)
  | [] => [[]]
  | c :: rest =>
    if c = ',' then
      [] :: splitComma rest
    else
      match splitComma rest with
      | part :: parts => (c :: part) :: parts
      | [] => [[c]]

/-- Go `parseAllowedOrigins`. -/
def parseAllowedOrigins (origins : String) : List String :=
  if origins = "" then
    []
  else
    ((splitComma origins.data).map fun origin => TrimSpace ⟨origin⟩).filter
      fun trimmed => trimmed ≠ ""

/-- Go `(*Config).validate`. Each `log.Fatal` ends the process; the result is the
message logged then, or `ok` when the function returns. -/
def Config.validate (c : Config) : Except String Unit :=
  if c.JWTSecret = "" then
    .error "JWT_SECRET environment variable is required"
  else if len c.JWTSecret < 32 then
    .error "JWT_SECRET must be at least 32 characters long"
  else if c.EncryptionKey = "" then
    .error "ENCRYPTION_KEY environment variable is required"
  else if len c.EncryptionKey ≠ 32 then
    .error "ENCRYPTION_KEY must be exactly 32 characters (256 bits) for AES-256"
  else
    .ok ()

/-- Go `Load`: the configuration read from the environment, or the message of the
`log.Fatal` that ended the process. -/
def Load (env : String → String) : Except String Config :=
  let cfg : Config :=
    { DBHost := getEnv env "DB_HOST" "localhost"
      DBPort := getEnv env "DB_PORT" "5432"
      DBUser := getEnv env "DB_USER" "wifiqr"
      DBPassword := getEnv env "DB_PASSWORD" "dev_password_123"
      DBName := getEnv env "DB_NAME" "wifiqr_db"
      DBSSLMode := getEnv env "DB_SSL_MODE" "disable"
      JWTSecret := getEnv env "JWT_SECRET" ""
      EncryptionKey := getEnv env "ENCRYPTION_KEY" ""
      Port := getEnv env "PORT" "8080"
      FrontendURL := getEnv env "FRONTEND_URL" "http://localhost:4200"
      GinMode := getEnv env "GIN_MODE" "debug"
      LogLevel := getEnv env "LOG_LEVEL" "info"
      AllowedOrigins := parseAllowedOrigins (getEnv env "ALLOWED_ORIGINS" "http://localhost:4200") }
  match cfg.validate with
  | .error message => .error message
  | .ok _ => .ok cfg

end config

namespace routes

/-- Go `SetupRoutes`, as far as the WiFi service goes: the service it builds from
the configuration. -/
def SetupRoutes (cfg : config.Config) : services.WifiService :=
  services.NewWifiService cfg.EncryptionKey

/-- Go `main`, up to the wiring of the WiFi service: `config.Load()` and then
`routes.SetupRoutes`. -/
def wifiServiceAtStartup (env : String → String) : Except String services.WifiService :=
  match config.Load env with
  | .error message => .error message
  | .ok cfg => .ok (SetupRoutes cfg)

end routes

/-! ## Package `handlers`: creating a credential -/

/-- Go `err.Error()`. -/
def Err.Error : Err → String
  | .ErrWifiNotFound => "WiFi credential not found"
  | .ErrUnauthorizedAccess => "unauthorized access to WiFi credential"
  | .ErrRecordNotFound => "record not found"
  | .New text => text
  | .Errorf text => text
  | .Wrap text err => text ++ ": " ++ err.Error
  | .External text => text

namespace handlers

open models services

/-- Go `ErrorResponse`. -/
structure ErrorResponse where
  Error : String
  Message : String
  deriving DecidableEq

/-- What `c.JSON` is given as the body of the answer. -/
inductive Body where
  | error (e : ErrorResponse)
  | credential (c : PublicWifiCredential)
  deriving DecidableEq

/-- An HTTP answer: status code and body. -/
structure Response where
  status : Nat
  body : Body
  deriving DecidableEq

/-- The text the validator reports for a field that fails a binding tag. -/
def fieldError (field tag : String) : String :=
  "Key: 'CreateWifiRequest." ++ field ++ "' Error:Field validation for '" ++ field ++
    "' failed on the '" ++ tag ++ "' tag"

/-- The first failing tag of `binding:"required,min=1,max=32"` on `SSID`; the length
of a string is counted in characters. -/
def ssidFailedTag (ssid : String) : Option String :=
  if ssid = "" then some "required"
  else if ssid.length < 1 then some "min"
  else if 32 < ssid.length then some "max"
  else none

/-- The first failing tag of `binding:"max=63"` on `Password`. -/
def passwordFailedTag (password : String) : Option String :=
  if 63 < password.length then some "max" else none

/-- The first failing tag of `binding:"required"` on `SecurityType`. -/
def securityTypeFailedTag (securityType : SecurityType) : Option String :=
  if securityType = "" then some "required" else none

/-- The validation of a decoded `CreateWifiRequest` against its binding tags. -/
def validateStruct (req : CreateWifiRequest) : Except Err Unit :=
  let errs :=
    [(ssidFailedTag req.SSID).map (fieldError "SSID"),
      (passwordFailedTag req.Password).map (fieldError "Password"),
      (securityTypeFailedTag req.SecurityType).map (fieldError "SecurityType")].filterMap id
  if errs = [] then .ok () else .error (.External ("\n".intercalate errs))

/-- Go `c.ShouldBindJSON(&req)`: `decoded` is the request the JSON body decodes to,
`none` when the body is not a JSON object of that shape; a decoded request is then
validated against the binding tags. -/
def ShouldBindJSON (decoded : Option CreateWifiRequest) : Except Err CreateWifiRequest :=
  match decoded with
  | none => .error (.External "invalid character in JSON body")
  | some req =>
    match validateStruct req with
    | .error err => .error err
    | .ok _ => .ok req

/-- Go `(*WifiHandler).Create`; `userID` is the result of `middleware.GetUserID`,
`none` when the context holds no user id. -/
def WifiHandler.Create (L : Lib) (s : WifiService) (w : World) (userID : Option UUID)
    (decoded : Option CreateWifiRequest) : Response × World :=
  match userID with
  | none => ({ status := 401, body := .error { Error := "Unauthorized", Message := "" } }, w)
  | some userID =>
    match ShouldBindJSON decoded with
    | .error err =>
      ({ status := 400
         body := .error { Error := "Invalid request body", Message := err.Error } }, w)
    | .ok req =>
      match s.Create L w userID req with
      | (.error err, w) =>
        ({ status := 400
           body := .error { Error := "Failed to create WiFi credential", Message := err.Error } },
          w)
      | (.ok credential, w) => ({ status := 201, body := .credential credential.ToPublic }, w)

end handlers

/-! ## Changed blobs -/

/-- The blob of `password` under the key of `s` when the random source of `w` comes
next: `base64(nonce ++ seal(nonce, password))` with the first twelve random bytes as
nonce. -/
def sealedBlob (L : Lib) (s : services.WifiService) (w : World) (password : String) : String :=
  base64.EncodeToString
    (w.rand.take 12 ++ L.gcmSeal s.encryptionKey (w.rand.take 12) (stringToBytes password))

/-- The text `blob` with the character at position `i` replaced by `c`. -/
def changeAt (blob : String) (i : Nat) (c : Char) : String :=
  ⟨blob.data.set i c⟩

/-- The authentication of the cipher detects the change of character `i` of `blob`
to `c`: when the changed blob decodes to other bytes than `blob` does, the cipher
rejects these bytes under `key`, however they are split into a nonce of twelve bytes
and a sealed text. -/
def Lib.DetectsChange (L : Lib) (key : List Byte) (blob : String) (i : Nat) (c : Char) : Prop :=
  ∀ bytes : List Byte,
    base64.DecodeString (changeAt blob i c) = .ok bytes →
    base64.DecodeString blob ≠ .ok bytes →
    ∀ nonce ciphertext : List Byte, nonce.length = 12 → bytes = nonce ++ ciphertext →
      L.gcmOpen key nonce ciphertext = none

/-- The check behind `Lib.DetectsChange`, as a computation: the changed blob does not
decode, or decodes to the bytes of `blob`, or decodes to bytes the cipher rejects
when they are split at the twelfth byte. -/
def changeCheck (L : Lib) (key : List Byte) (blob : String) (i : Nat) (c : Char) : Bool :=
  match base64.DecodeString (changeAt blob i c) with
  | .error _ => true
  | .ok bytes =>
    base64.DecodeString blob = .ok bytes ∨ L.gcmOpen key (bytes.take 12) (bytes.drop 12) = none

/-! ## A concrete environment for running the code -/

/-- A stand-in for the libraries, used to run the code on concrete inputs: sealing
masks every byte with the first bytes of key and nonce and appends a 16-byte tag,
opening checks the tag; the QR renderer accepts contents of at most 1000
characters. -/
def toyLib : Lib :=
  { gcmSeal := fun key nonce plaintext =>
      plaintext.map (fun b => b + (key.headD 0 + nonce.headD 0)) ++
        List.replicate 16 (key.headD 0 + nonce.headD 0)
    gcmOpen := fun key nonce ciphertext =>
      if ciphertext.drop (ciphertext.length - 16)
          = List.replicate 16 (key.headD 0 + nonce.headD 0) then
        some ((ciphertext.take (ciphertext.length - 16)).map
          (fun b => b - (key.headD 0 + nonce.headD 0)))
      else
        none
    qrEncode := fun content =>
      if content.length ≤ 1000 then some (stringToBytes content) else none }

/-- A service holding a 32-byte key. -/
def testService : services.WifiService :=
  services.NewWifiService "0123456789abcdef0123456789abcdef"

/-- An empty table, a working connection and 24 bytes of randomness. -/
def testWorld : World :=
  { rows := []
    dbErr := none
    rand := [7, 1, 2, 3, 4, 5, 6, 7, 8, 9, 10, 11, 200, 13, 14, 15, 16, 17, 18, 19, 20, 21, 22, 23]
    uuids := fun n => 1000 + n
    uuidsDrawn := 0
    now := 1700000000
    trace := [] }

/-- A credential of user 7. -/
def homeCredential : models.WifiCredential :=
  { ID := 41
    UserID := 7
    SSID := "Home"
    EncryptedPassword := "BwECAwQFBgcICQoLqpyaqZyrNzc3Nzc3Nzc3Nzc3Nzc3Nw=="
    SecurityType := models.SecurityWPA2
    IsHidden := false
    QRCodeData := "V0lGSTpUOldQQTI7UzpIb21lO1A6c2VjcmV0O0g6Ozs="
    CreatedAt := 1600000000
    UpdatedAt := 1600000000 }

/-- A credential of user 8. -/
def cafeCredential : models.WifiCredential :=
  { ID := 42
    UserID := 8
    SSID := "Cafe"
    EncryptedPassword := ""
    SecurityType := models.SecurityNone
    IsHidden := false
    QRCodeData := "V0lGSTpUOm5vcGFzcztTOkNhZmU7UDo7SDo7Ow=="
    CreatedAt := 1600000500
    UpdatedAt := 1600000500 }

/-- A table holding the two credentials above. -/
def storedWorld : World :=
  { testWorld with rows := [homeCredential, cafeCredential] }

/-- An environment that sets the two secrets, the key to 32 bytes. -/
def testEnv (key : String) : String :=
  if key = "JWT_SECRET" then "0123456789abcdef0123456789abcdef-jwt"
  else if key = "ENCRYPTION_KEY" then "0123456789abcdef0123456789abcdef"
  else ""

/-- An environment whose cipher key has only 16 bytes. -/
def shortKeyEnv (key : String) : String :=
  if key = "JWT_SECRET" then "0123456789abcdef0123456789abcdef-jwt"
  else if key = "ENCRYPTION_KEY" then "0123456789abcdef"
  else ""

/-- An environment whose random source delivers the same twelve bytes twice. -/
def repeatingWorld : World :=
  { testWorld with rand := List.replicate 24 9 }

/-- The tag of the stand-in cipher `checkedLib`: the bytes of key, nonce and sealed
body, read as one number in base 257, reduced modulo the prime `2 ^ 127 - 1` and
written in sixteen bytes. -/
def checkedTag (key nonce body : List Byte) : List Byte :=
  (List.range 16).map fun j =>
    Fin.ofNat
      ((key ++ nonce ++ body).foldl (fun acc b => acc * 257 + (b.val + 1)) 1
        % 170141183460469231731687303715884105727 / 256 ^ j)

/-- A stand-in cipher whose tag depends on every byte of key, nonce and body: sealing
masks the plaintext as `toyLib` does and appends `checkedTag`; opening recomputes the
tag and rejects the text when it differs. -/
def checkedLib : Lib :=
  { gcmSeal := fun key nonce plaintext =>
      plaintext.map (fun b => b + (key.headD 0 + nonce.headD 0)) ++
        checkedTag key nonce (plaintext.map (fun b => b + (key.headD 0 + nonce.headD 0)))
    gcmOpen := fun key nonce ciphertext =>
      if ciphertext.drop (ciphertext.length - 16)
          = checkedTag key nonce (ciphertext.take (ciphertext.length - 16)) then
        some ((ciphertext.take (ciphertext.length - 16)).map
          (fun b => b - (key.headD 0 + nonce.headD 0)))
      else
        none
    qrEncode := toyLib.qrEncode }

/-! # Theorems -/

/-! ## Bytes of a text -/

/-- A rune is below `0x110000`. -/
theorem char_toNat_lt (c : Char) : c.toNat < 0x110000 := by
  have := c.valid
  simp [Char.toNat, UInt32.isValidChar, Nat.isValidChar] at *
  omega

/-- Reading the UTF-8 bytes of one rune gives the rune back. -/
theorem utf8DecodeRunes_encodeRune (c : Char) (rest : List Byte) :
    utf8DecodeRunes (utf8EncodeRune c ++ rest) 0 0 = c :: utf8DecodeRunes rest 0 0 := by
  have hlt := char_toNat_lt c
  have hc := Char.ofNat_toNat c
  have hval : ∀ x : Nat, (Fin.ofNat x : Fin 256).val = x % 256 := fun _ => rfl
  unfold utf8EncodeRune
  by_cases h1 : c.toNat < 0x80
  · have e0 : c.toNat % 256 = c.toNat := by omega
    simp only [h1, if_true, List.cons_append, List.nil_append, utf8DecodeRunes, hval, e0, hc]
  · by_cases h2 : c.toNat < 0x800
    · have e0 : (0xC0 + c.toNat / 64) % 256 = 0xC0 + c.toNat / 64 := by omega
      have n1 : ¬ 0xC0 + c.toNat / 64 < 0x80 := by omega
      have n2 : ¬ 0xC0 + c.toNat / 64 < 0xC0 := by omega
      have n3 : 0xC0 + c.toNat / 64 < 0xE0 := by omega
      simp [h1, h2, utf8DecodeRunes, hval, e0, n1, n2, n3]
      refine Eq.trans (congrArg Char.ofNat ?_) hc
      omega
    · by_cases h3 : c.toNat < 0x10000
      · have e0 : (0xE0 + c.toNat / 4096) % 256 = 0xE0 + c.toNat / 4096 := by omega
        have n1 : ¬ 0xE0 + c.toNat / 4096 < 0x80 := by omega
        have n2 : ¬ 0xE0 + c.toNat / 4096 < 0xC0 := by omega
        have n3 : ¬ 0xE0 + c.toNat / 4096 < 0xE0 := by omega
        have n4 : 0xE0 + c.toNat / 4096 < 0xF0 := by omega
        simp [h1, h2, h3, utf8DecodeRunes, hval, e0, n1, n2, n3, n4]
        refine Eq.trans (congrArg Char.ofNat ?_) hc
        omega
      · have e0 : (0xF0 + c.toNat / 262144) % 256 = 0xF0 + c.toNat / 262144 := by omega
        have n1 : ¬ 0xF0 + c.toNat / 262144 < 0x80 := by omega
        have n2 : ¬ 0xF0 + c.toNat / 262144 < 0xC0 := by omega
        have n3 : ¬ 0xF0 + c.toNat / 262144 < 0xE0 := by omega
        have n4 : ¬ 0xF0 + c.toNat / 262144 < 0xF0 := by omega
        simp [h1, h2, h3, utf8DecodeRunes, hval, e0, n1, n2, n3, n4]
        refine Eq.trans (congrArg Char.ofNat ?_) hc
        omega

/-- Go `string([]byte(s)) == s`: converting a text to bytes and back changes nothing. -/
theorem bytesToString_stringToBytes (s : String) : bytesToString (stringToBytes s) = s := by
  apply String.ext
  simp only [bytesToString, stringToBytes]
  induction s.data with
  | nil => simp [utf8DecodeRunes]
  | cons c l ih => rw [List.flatMap_cons, utf8DecodeRunes_encodeRune, ih]

/-- A text that is not empty has at least one byte. -/
theorem stringToBytes_ne_nil (s : String) (h : s ≠ "") : stringToBytes s ≠ [] := by
  obtain ⟨l⟩ := s
  cases l with
  | nil => exact absurd rfl h
  | cons c l =>
    unfold stringToBytes utf8EncodeRune
    simp only [List.flatMap_cons]
    split_ifs <;> simp

/-! ## Base64 -/

namespace base64

/-- The decoding table inverts the encoding table. -/
theorem decodeMap_encodeChar (i : Nat) (h : i < 64) : decodeMap (encodeChar i) = some i := by
  have key : ∀ j : Fin 64, decodeMap (encodeChar j.val) = some j.val := by decide
  exact key ⟨i, h⟩

/-- A byte is determined by its value. -/
theorem byte_ofNat_eq (x : Nat) (a : Byte) (h : x = a.val) : (Fin.ofNat x : Byte) = a := by
  apply Fin.ext
  show x % 256 = a.val
  have := a.isLt
  omega

/-- Four characters that encode three bytes decode to these bytes. -/
theorem decodeLoop_quantum (a b c : Byte) (src : List Char) (dst : List Byte) :
    decodeLoop
      (encodeChar ((a.val * 65536 + b.val * 256 + c.val) / 262144 % 64) ::
        encodeChar ((a.val * 65536 + b.val * 256 + c.val) / 4096 % 64) ::
        encodeChar ((a.val * 65536 + b.val * 256 + c.val) / 64 % 64) ::
        encodeChar ((a.val * 65536 + b.val * 256 + c.val) % 64) :: src) [] dst
      = decodeLoop src [] (dst ++ [a, b, c]) := by
  have ha := a.isLt
  have hb := b.isLt
  have hc := c.isLt
  have e0 := decodeMap_encodeChar ((a.val * 65536 + b.val * 256 + c.val) / 262144 % 64)
    (Nat.mod_lt _ (by decide))
  have e1 := decodeMap_encodeChar ((a.val * 65536 + b.val * 256 + c.val) / 4096 % 64)
    (Nat.mod_lt _ (by decide))
  have e2 := decodeMap_encodeChar ((a.val * 65536 + b.val * 256 + c.val) / 64 % 64)
    (Nat.mod_lt _ (by decide))
  have e3 := decodeMap_encodeChar ((a.val * 65536 + b.val * 256 + c.val) % 64)
    (Nat.mod_lt _ (by decide))
  simp only [decodeLoop, e0, e1, e2, e3, List.length_nil, List.nil_append, List.length_cons,
    List.cons_append, List.length_singleton]
  simp only [quantumBytes, List.getD_cons_zero, List.getD_cons_succ, List.length_cons,
    List.length_nil, List.map_cons, List.map_nil]
  have ba : (Fin.ofNat (((a.val * 65536 + b.val * 256 + c.val) / 262144 % 64 * 262144 +
      (a.val * 65536 + b.val * 256 + c.val) / 4096 % 64 * 4096 +
      (a.val * 65536 + b.val * 256 + c.val) / 64 % 64 * 64 +
      (a.val * 65536 + b.val * 256 + c.val) % 64) / 65536 % 256) : Byte) = a :=
    byte_ofNat_eq _ a (by omega)
  have bb : (Fin.ofNat (((a.val * 65536 + b.val * 256 + c.val) / 262144 % 64 * 262144 +
      (a.val * 65536 + b.val * 256 + c.val) / 4096 % 64 * 4096 +
      (a.val * 65536 + b.val * 256 + c.val) / 64 % 64 * 64 +
      (a.val * 65536 + b.val * 256 + c.val) % 64) / 256 % 256) : Byte) = b :=
    byte_ofNat_eq _ b (by omega)
  have bc : (Fin.ofNat (((a.val * 65536 + b.val * 256 + c.val) / 262144 % 64 * 262144 +
      (a.val * 65536 + b.val * 256 + c.val) / 4096 % 64 * 4096 +
      (a.val * 65536 + b.val * 256 + c.val) / 64 % 64 * 64 +
      (a.val * 65536 + b.val * 256 + c.val) % 64) % 256) : Byte) = c :=
    byte_ofNat_eq _ c (by omega)
  rw [ba, bb, bc]
  rfl

/-- The padding character is not in the alphabet. -/
theorem decodeMap_pad : decodeMap '=' = none := by decide

/-- Three characters and one `=` that encode two final bytes decode to these bytes. -/
theorem decodeLoop_two (a b : Byte) (dst : List Byte) :
    decodeLoop
      [encodeChar ((a.val * 65536 + b.val * 256) / 262144 % 64),
        encodeChar ((a.val * 65536 + b.val * 256) / 4096 % 64),
        encodeChar ((a.val * 65536 + b.val * 256) / 64 % 64), '='] [] dst
      = .ok (dst ++ [a, b]) := by
  have ha := a.isLt
  have hb := b.isLt
  have e0 := decodeMap_encodeChar ((a.val * 65536 + b.val * 256) / 262144 % 64)
    (Nat.mod_lt _ (by decide))
  have e1 := decodeMap_encodeChar ((a.val * 65536 + b.val * 256) / 4096 % 64)
    (Nat.mod_lt _ (by decide))
  have e2 := decodeMap_encodeChar ((a.val * 65536 + b.val * 256) / 64 % 64)
    (Nat.mod_lt _ (by decide))
  have hn : ¬ ('=' = '\n' ∨ '=' = '\r') := by decide
  simp only [decodeLoop, e0, e1, e2, decodeMap_pad, hn, List.length_nil, List.nil_append,
    List.length_cons, List.cons_append, List.length_singleton, skipNewlines]
  simp only [quantumBytes, List.getD_cons_zero, List.getD_cons_succ, List.length_cons,
    List.length_nil, List.map_cons, List.map_nil, List.getD_nil]
  have ba : (Fin.ofNat (((a.val * 65536 + b.val * 256) / 262144 % 64 * 262144 +
      (a.val * 65536 + b.val * 256) / 4096 % 64 * 4096 +
      (a.val * 65536 + b.val * 256) / 64 % 64 * 64 + 0) / 65536 % 256) : Byte) = a :=
    byte_ofNat_eq _ a (by omega)
  have bb : (Fin.ofNat (((a.val * 65536 + b.val * 256) / 262144 % 64 * 262144 +
      (a.val * 65536 + b.val * 256) / 4096 % 64 * 4096 +
      (a.val * 65536 + b.val * 256) / 64 % 64 * 64 + 0) / 256 % 256) : Byte) = b :=
    byte_ofNat_eq _ b (by omega)
  rw [ba, bb]
  rfl

/-- Two characters and `==` that encode one final byte decode to this byte. -/
theorem decodeLoop_one (a : Byte) (dst : List Byte) :
    decodeLoop
      [encodeChar ((a.val * 65536) / 262144 % 64), encodeChar ((a.val * 65536) / 4096 % 64),
        '=', '='] [] dst
      = .ok (dst ++ [a]) := by
  have ha := a.isLt
  have e0 := decodeMap_encodeChar ((a.val * 65536) / 262144 % 64) (Nat.mod_lt _ (by decide))
  have e1 := decodeMap_encodeChar ((a.val * 65536) / 4096 % 64) (Nat.mod_lt _ (by decide))
  have hn : ¬ ('=' = '\n' ∨ '=' = '\r') := by decide
  simp only [decodeLoop, e0, e1, decodeMap_pad, hn, List.length_nil, List.nil_append,
    List.length_cons, List.cons_append, List.length_singleton, skipNewlines]
  simp only [quantumBytes, List.getD_cons_zero, List.getD_cons_succ, List.length_cons,
    List.length_nil, List.map_cons, List.map_nil, List.getD_nil]
  have ba : (Fin.ofNat (((a.val * 65536) / 262144 % 64 * 262144 +
      (a.val * 65536) / 4096 % 64 * 4096 + 0 * 64 + 0) / 65536 % 256) : Byte) = a :=
    byte_ofNat_eq _ a (by omega)
  rw [ba]
  rfl

/-- Decoding what `encode` produced appends the encoded bytes. -/
theorem decodeLoop_encode (bs : List Byte) (dst : List Byte) :
    decodeLoop (encode bs) [] dst = .ok (dst ++ bs) := by
  induction bs using encode.induct generalizing dst with
  | case1 a b c rest ih =>
    rw [encode, decodeLoop_quantum, ih]
    simp
  | case2 a b =>
    rw [encode]
    exact decodeLoop_two a b dst
  | case3 a =>
    rw [encode]
    exact decodeLoop_one a dst
  | case4 =>
    simp [encode, decodeLoop]

/-- Go `DecodeString(EncodeToString(b)) == b`. -/
theorem DecodeString_EncodeToString (bs : List Byte) :
    DecodeString (EncodeToString bs) = .ok bs := by
  simp only [DecodeString, EncodeToString]
  rw [decodeLoop_encode]
  simp

/-- The encoding of bytes is empty only for no bytes. -/
theorem EncodeToString_ne_empty (bs : List Byte) (h : bs ≠ []) : EncodeToString bs ≠ "" := by
  intro he
  have hd : (EncodeToString bs).data = [] := by rw [he]
  simp only [EncodeToString] at hd
  match bs, h with
  | [a], _ => simp [encode] at hd
  | [a, b], _ => simp [encode] at hd
  | a :: b :: c :: rest, _ => simp [encode] at hd

end base64

/-! ## Credential cipher -/

/-- The stand-in cipher opens what it sealed. -/
theorem toyLib_sound : toyLib.Sound := by
  intro key nonce plaintext _ _
  have hid : ((fun b : Byte => b - (key.headD 0 + nonce.headD 0)) ∘
      fun b => b + (key.headD 0 + nonce.headD 0)) = id := by
    funext b
    simp
  simp [toyLib]
  rw [← List.headD_eq_head?_getD, ← List.headD_eq_head?_getD, hid, List.map_id]

/-- A key of 32 bytes makes an AES cipher. -/
theorem aesNewCipher_of_length (key : List Byte) (h : key.length = 32) :
    aesNewCipher key = .ok { key := key } := by
  simp [aesNewCipher, h]

namespace services

/-- C5: for a non-empty password under a 32-byte key, whatever nonce is drawn,
`encryptPassword` returns `base64(nonce ++ seal(nonce, password))`, the blob decodes
to these bytes, which split at the nonce size into nonce and sealed text, and
`DecryptPassword` of the blob succeeds and returns exactly the password. -/
theorem encrypt_then_decrypt (L : Lib) (hL : L.Sound) (s : WifiService) (w w2 : World)
    (password : String) (hkey : s.encryptionKey.length = 32) (hp : password ≠ "")
    (hrand : 12 ≤ w.rand.length) :
    (s.encryptPassword L w password).1
      = .ok (base64.EncodeToString
          (w.rand.take 12 ++ L.gcmSeal s.encryptionKey (w.rand.take 12) (stringToBytes password)))
    ∧ base64.DecodeString (base64.EncodeToString
          (w.rand.take 12 ++ L.gcmSeal s.encryptionKey (w.rand.take 12) (stringToBytes password)))
      = .ok (w.rand.take 12 ++ L.gcmSeal s.encryptionKey (w.rand.take 12) (stringToBytes password))
    ∧ (w.rand.take 12 ++ L.gcmSeal s.encryptionKey (w.rand.take 12)
          (stringToBytes password)).take 12 = w.rand.take 12
    ∧ (w.rand.take 12 ++ L.gcmSeal s.encryptionKey (w.rand.take 12)
          (stringToBytes password)).drop 12
        = L.gcmSeal s.encryptionKey (w.rand.take 12) (stringToBytes password)
    ∧ (s.DecryptPassword L w2 (base64.EncodeToString
          (w.rand.take 12 ++ L.gcmSeal s.encryptionKey (w.rand.take 12) (stringToBytes password)))).1
      = .ok password := by
  have hlen : (w.rand.take 12).length = 12 := by
    rw [List.length_take]
    omega
  have htake : (w.rand.take 12 ++ L.gcmSeal s.encryptionKey (w.rand.take 12)
      (stringToBytes password)).take 12 = w.rand.take 12 := List.take_left' hlen
  have hdrop : (w.rand.take 12 ++ L.gcmSeal s.encryptionKey (w.rand.take 12)
      (stringToBytes password)).drop 12
      = L.gcmSeal s.encryptionKey (w.rand.take 12) (stringToBytes password) :=
    List.drop_left' hlen
  have hne : base64.EncodeToString (w.rand.take 12 ++ L.gcmSeal s.encryptionKey
      (w.rand.take 12) (stringToBytes password)) ≠ "" := by
    apply base64.EncodeToString_ne_empty
    intro h
    have := congrArg List.length h
    rw [List.length_append, hlen] at this
    simp at this
  have hopen := hL s.encryptionKey (w.rand.take 12) (stringToBytes password)
    (Or.inr (Or.inr hkey)) hlen
  refine ⟨?_, base64.DecodeString_EncodeToString _, htake, hdrop, ?_⟩
  · simp [WifiService.encryptPassword, hp, aesNewCipher_of_length _ hkey, cipherNewGCM, readFull,
      GCM.NonceSize, World.log, hrand, GCM.Seal]
  · have hge : ¬ (w.rand.take 12 ++ L.gcmSeal s.encryptionKey (w.rand.take 12)
        (stringToBytes password)).length < 12 := by
      rw [List.length_append, hlen]
      omega
    simp only [WifiService.DecryptPassword, hne, if_false, base64.DecodeString_EncodeToString,
      aesNewCipher_of_length _ hkey, cipherNewGCM, GCM.NonceSize, hge, htake, hdrop, GCM.Open,
      hopen, bytesToString_stringToBytes]

/-- C5 on a concrete run: the password `secret` under the test key. -/
theorem encrypt_then_decrypt_witness :
    (testService.encryptPassword toyLib testWorld "secret").1
      = .ok "BwECAwQFBgcICQoLqpyaqZyrNzc3Nzc3Nzc3Nzc3Nzc3Nw==" ∧
    (testService.DecryptPassword toyLib testWorld
      "BwECAwQFBgcICQoLqpyaqZyrNzc3Nzc3Nzc3Nzc3Nzc3Nw==").1 = .ok "secret" :=
  ⟨(encrypt_then_decrypt toyLib toyLib_sound testService testWorld testWorld "secret"
      (by decide) (by decide) (by decide)).1.trans (by decide),
    by decide⟩

end services

/-! ## Repository -/

namespace repositories

open models

/-- Under the primary key a stored row is the one a search for its id finds. -/
theorem find_of_mem (rows : List WifiCredential) (c : WifiCredential) (hmem : c ∈ rows)
    (hpk : (rows.map fun row => row.ID).Nodup) :
    rows.find? (fun row => row.ID = c.ID) = some c := by
  induction rows with
  | nil => cases hmem
  | cons r rows ih =>
    rw [List.map_cons, List.nodup_cons] at hpk
    rcases List.mem_cons.mp hmem with h | h
    · subst h
      simp
    · have hne : r.ID ≠ c.ID := by
        intro he
        apply hpk.1
        rw [he]
        exact List.mem_map_of_mem (fun row => row.ID) h
      rw [List.find?_cons_of_neg _ (by simpa using hne)]
      exact ih h hpk.2

/-- A search for an id that no row carries finds nothing. -/
theorem find_of_absent (rows : List WifiCredential) (id : UUID)
    (hno : ∀ c ∈ rows, c.ID ≠ id) :
    rows.find? (fun row => row.ID = id) = none := by
  rw [List.find?_eq_none]
  intro c hc
  simpa using hno c hc

/-- `FindByID` on a working connection returns the stored row of that id. -/
theorem FindByID_of_mem (w : World) (c : WifiCredential) (hdb : w.dbErr = none)
    (hmem : c ∈ w.rows) (hpk : w.UniqueIDs) :
    WifiRepository.FindByID w c.ID = (.ok (some c), w.log (.repoFindByID c.ID)) := by
  have hf := find_of_mem w.rows c hmem hpk
  simp only [WifiRepository.FindByID, dbFirst, World.log, hdb, hf]

/-- `FindByID` on a working connection returns nil for an id without a row. -/
theorem FindByID_of_absent (w : World) (id : UUID) (hdb : w.dbErr = none)
    (hno : ∀ c ∈ w.rows, c.ID ≠ id) :
    WifiRepository.FindByID w id = (.ok none, w.log (.repoFindByID id)) := by
  have hf := find_of_absent w.rows id hno
  simp only [WifiRepository.FindByID, dbFirst, World.log, hdb, hf]
  simp

/-- `Delete` on a working connection succeeds for the id of a stored row. -/
theorem Delete_of_mem (w : World) (c : WifiCredential) (hdb : w.dbErr = none)
    (hmem : c ∈ w.rows) :
    (WifiRepository.Delete w c.ID).1 = none := by
  have hpos : 0 < w.rows.countP (fun row => row.ID = c.ID) := by
    rw [List.countP_pos_iff]
    exact ⟨c, hmem, by simp⟩
  have hne : ¬ w.rows.countP (fun row => row.ID = c.ID) = 0 := by omega
  simp only [WifiRepository.Delete, dbDelete, World.log, hdb, hne, if_false]

end repositories

/-! ## Access service: reading and deleting -/

namespace services

open models

/-- C1: on an existing record, with the repository answering, `GetByID` and `Delete`
by a caller who is neither administrator nor owner both fail with
`ErrUnauthorizedAccess`; by an administrator or the owner `GetByID` returns the
record and `Delete` returns no error. -/
theorem GetByID_Delete_authorization (s : WifiService) (w : World) (c : WifiCredential)
    (callerID : UUID) (callerIsAdmin : Bool) (hdb : w.dbErr = none) (hmem : c ∈ w.rows)
    (hpk : w.UniqueIDs) :
    (callerIsAdmin = false ∧ c.UserID ≠ callerID →
      (s.GetByID w c.ID callerID callerIsAdmin).1 = .error .ErrUnauthorizedAccess ∧
      (s.Delete w c.ID callerID callerIsAdmin).1 = some .ErrUnauthorizedAccess) ∧
    (callerIsAdmin = true ∨ c.UserID = callerID →
      (s.GetByID w c.ID callerID callerIsAdmin).1 = .ok c ∧
      (s.Delete w c.ID callerID callerIsAdmin).1 = none) := by
  have hfind := repositories.FindByID_of_mem w c hdb hmem hpk
  have hdel := repositories.Delete_of_mem (w.log (.repoFindByID c.ID)) c hdb hmem
  constructor
  · rintro ⟨hadmin, howner⟩
    simp [WifiService.GetByID, WifiService.Delete, hfind, hadmin, howner]
  · intro hauth
    have hcond : ¬ (¬ (callerIsAdmin = true) ∧ c.UserID ≠ callerID) := by
      rintro ⟨h1, h2⟩
      rcases hauth with h | h
      · exact h1 h
      · exact h2 h
    constructor
    · simp only [WifiService.GetByID, hfind, hcond, if_false]
    · simp only [WifiService.Delete, hfind, hcond, if_false]
      revert hdel
      cases repositories.WifiRepository.Delete (w.log (.repoFindByID c.ID)) c.ID with
      | mk e w3 =>
        intro hdel
        simp only at hdel
        subst hdel
        rfl

/-- C10: with the repository answering, `GetByID` for an id without a record fails
with `ErrWifiNotFound` whoever the caller is and whether or not the caller is an
administrator. -/
theorem GetByID_not_found (s : WifiService) (w : World) (id : UUID) (callerID : UUID)
    (callerIsAdmin : Bool) (hdb : w.dbErr = none) (hno : ∀ c ∈ w.rows, c.ID ≠ id) :
    (s.GetByID w id callerID callerIsAdmin).1 = .error .ErrWifiNotFound := by
  have hfind := repositories.FindByID_of_absent w id hdb hno
  unfold WifiService.GetByID
  rw [hfind]

/-- C1 on the stored table: user 8 is refused on the record of user 7, while user 7
and an administrator are served. -/
theorem GetByID_Delete_authorization_witness :
    ((testService.GetByID storedWorld 41 8 false).1 = .error .ErrUnauthorizedAccess ∧
      (testService.Delete storedWorld 41 8 false).1 = some .ErrUnauthorizedAccess) ∧
    ((testService.GetByID storedWorld 41 7 false).1 = .ok homeCredential ∧
      (testService.Delete storedWorld 41 7 false).1 = none) ∧
    ((testService.GetByID storedWorld 41 8 true).1 = .ok homeCredential ∧
      (testService.Delete storedWorld 41 8 true).1 = none) :=
  ⟨(GetByID_Delete_authorization testService storedWorld homeCredential 8 false rfl
      (by decide) (by unfold World.UniqueIDs; decide)).1 ⟨rfl, by decide⟩,
    (GetByID_Delete_authorization testService storedWorld homeCredential 7 false rfl
      (by decide) (by unfold World.UniqueIDs; decide)).2 (Or.inr rfl),
    (GetByID_Delete_authorization testService storedWorld homeCredential 8 true rfl
      (by decide) (by unfold World.UniqueIDs; decide)).2 (Or.inl rfl)⟩

/-- C10 on the stored table: id 99 has no record. -/
theorem GetByID_not_found_witness :
    (testService.GetByID storedWorld 99 7 false).1 = .error .ErrWifiNotFound ∧
    (testService.GetByID storedWorld 99 7 true).1 = .error .ErrWifiNotFound :=
  ⟨GetByID_not_found testService storedWorld 99 7 false rfl (by decide),
    GetByID_not_found testService storedWorld 99 7 true rfl (by decide)⟩

end services

/-! ## Access service: creating -/

namespace services

open models

/-- `encryptPassword` leaves the table, the connection, the UUID source and the
clock as they are. -/
theorem encryptPassword_frame (L : Lib) (s : WifiService) (w : World) (password : String) :
    (s.encryptPassword L w password).2.rows = w.rows ∧
    (s.encryptPassword L w password).2.dbErr = w.dbErr ∧
    (s.encryptPassword L w password).2.uuids = w.uuids ∧
    (s.encryptPassword L w password).2.uuidsDrawn = w.uuidsDrawn ∧
    (s.encryptPassword L w password).2.now = w.now := by
  unfold WifiService.encryptPassword
  simp only [cipherNewGCM, readFull, World.log, GCM.NonceSize]
  split_ifs <;> (try split) <;> simp

/-- C6: `Create` with a security class other than `nopass` and an empty password
fails with a validation error before anything else happens: the error is the
password requirement (or, for an unknown class, the security-type failure), and the
environment is returned as it was, so no call to `encryptPassword`, to the QR encoder
or to the repository is recorded and the table is unchanged. -/
theorem Create_password_required (L : Lib) (s : WifiService) (w : World) (ownerID : UUID)
    (ssid : String) (security : SecurityType) (hidden : Bool)
    (hsec : security ≠ SecurityNone) :
    (IsValidSecurityType security = true →
      s.Create L w ownerID
          { SSID := ssid, Password := "", SecurityType := security, IsHidden := hidden }
        = (.error (.New "password is required for secured networks"), w)) ∧
    (IsValidSecurityType security = false →
      s.Create L w ownerID
          { SSID := ssid, Password := "", SecurityType := security, IsHidden := hidden }
        = (.error (.Errorf ("invalid security type: " ++ security)), w)) ∧
    (s.Create L w ownerID
        { SSID := ssid, Password := "", SecurityType := security, IsHidden := hidden }).2.trace
      = w.trace ∧
    (s.Create L w ownerID
        { SSID := ssid, Password := "", SecurityType := security, IsHidden := hidden }).2.rows
      = w.rows := by
  by_cases hv : IsValidSecurityType security = true
  · simp [WifiService.Create, hv, hsec]
  · simp [WifiService.Create, hv]

/-- C6 on a concrete request: WPA2 without a password, under libraries and a key
that would otherwise serve the request. -/
theorem Create_password_required_witness :
    testService.Create toyLib testWorld 7
        { SSID := "Home", Password := "", SecurityType := SecurityWPA2, IsHidden := false }
      = (.error (.New "password is required for secured networks"), testWorld) :=
  (Create_password_required toyLib testService testWorld 7 "Home" SecurityWPA2 false
    (by decide)).1 (by decide)

/-- C7: `IsValidSecurityType` accepts exactly the four tokens `WPA`, `WPA2`, `WEP` and
`nopass`, and `Create` with any other security class fails with the security-type
validation error and returns the environment, the table included, as it was. -/
theorem Create_invalid_security (L : Lib) (s : WifiService) (w : World) (ownerID : UUID)
    (req : CreateWifiRequest)
    (hsec : ¬ (req.SecurityType = "WPA" ∨ req.SecurityType = "WPA2" ∨
      req.SecurityType = "WEP" ∨ req.SecurityType = "nopass")) :
    s.Create L w ownerID req
      = (.error (.Errorf ("invalid security type: " ++ req.SecurityType)), w) ∧
    (s.Create L w ownerID req).2.rows = w.rows ∧
    (∀ st : String, IsValidSecurityType st = true ↔
      (st = "WPA" ∨ st = "WPA2" ∨ st = "WEP" ∨ st = "nopass")) := by
  have hiff : ∀ st : String, IsValidSecurityType st = true ↔
      (st = "WPA" ∨ st = "WPA2" ∨ st = "WEP" ∨ st = "nopass") := by
    intro st
    simp [IsValidSecurityType, SecurityWPA, SecurityWPA2, SecurityWEP, SecurityNone]
  have hv : ¬ IsValidSecurityType req.SecurityType = true := fun h =>
    hsec ((hiff req.SecurityType).mp h)
  simp [WifiService.Create, hv, hiff]

/-- C7 on a concrete request: the token is matched case-sensitively, so `wpa2` is
refused. -/
theorem Create_invalid_security_witness :
    testService.Create toyLib testWorld 7
        { SSID := "Home", Password := "secret", SecurityType := "wpa2", IsHidden := false }
      = (.error (.Errorf "invalid security type: wpa2"), testWorld) ∧
    IsValidSecurityType "wpa2" = false ∧ IsValidSecurityType "WPA2" = true :=
  ⟨(Create_invalid_security toyLib testService testWorld 7
      { SSID := "Home", Password := "secret", SecurityType := "wpa2", IsHidden := false }
      (by decide)).1,
    by decide, by decide⟩

/-- The run of `Create` on a request that passes validation, after an
`encryptPassword` that returned `encrypted` and the environment `w1`, when the QR
library renders the payload and the insert goes through. -/
theorem Create_run (L : Lib) (s : WifiService) (w w1 : World) (ownerID : UUID)
    (req : CreateWifiRequest) (encrypted : String) (png : List Byte)
    (hvalid : IsValidSecurityType req.SecurityType = true)
    (hpw : req.SecurityType = SecurityNone ∨ req.Password ≠ "")
    (henc : s.encryptPassword L w req.Password = (.ok encrypted, w1))
    (hqr : L.qrEncode (buildWiFiString req.SSID req.Password req.SecurityType req.IsHidden)
      = some png)
    (hdb : w1.dbErr = none)
    (hfresh : ∀ row ∈ w1.rows, row.ID ≠ w1.uuids w1.uuidsDrawn) :
    s.Create L w ownerID req
      = (.ok
          { ID := w1.uuids w1.uuidsDrawn
            UserID := ownerID
            SSID := req.SSID
            EncryptedPassword := encrypted
            SecurityType := req.SecurityType
            IsHidden := req.IsHidden
            QRCodeData := base64.EncodeToString png
            CreatedAt := w1.now
            UpdatedAt := w1.now },
        { w1 with
          rows := w1.rows ++
            [{ ID := w1.uuids w1.uuidsDrawn
               UserID := ownerID
               SSID := req.SSID
               EncryptedPassword := encrypted
               SecurityType := req.SecurityType
               IsHidden := req.IsHidden
               QRCodeData := base64.EncodeToString png
               CreatedAt := w1.now
               UpdatedAt := w1.now }]
          uuidsDrawn := w1.uuidsDrawn + 1
          trace := w1.trace ++ [Call.GenerateWiFiQRCode, Call.repoCreate] }) := by
  have hcond : ¬ (req.SecurityType ≠ SecurityNone ∧ req.Password = "") := by
    rintro ⟨h1, h2⟩
    rcases hpw with h | h
    · exact h1 h
    · exact h h2
  have hex : ¬ ∃ x ∈ w1.rows, x.ID = w1.uuids w1.uuidsDrawn := by
    rintro ⟨row, hrow, hid⟩
    exact hfresh row hrow hid
  simp [WifiService.Create, hvalid, hcond, henc, GenerateWiFiQRCode, hqr,
    repositories.WifiRepository.Create, repositories.dbCreate, uuidNew, World.log, hdb, hex,
    uuidNil]

/-- The blob `encryptPassword` returns for a non-empty password under a 32-byte key
when the random source delivers a nonce. -/
theorem encryptPassword_of_nonempty (L : Lib) (s : WifiService) (w : World) (password : String)
    (hkey : s.encryptionKey.length = 32) (hp : password ≠ "") (hrand : 12 ≤ w.rand.length) :
    (s.encryptPassword L w password).1
      = .ok (base64.EncodeToString
          (w.rand.take 12 ++ L.gcmSeal s.encryptionKey (w.rand.take 12) (stringToBytes password))) := by
  simp [WifiService.encryptPassword, hp, aesNewCipher_of_length _ hkey, cipherNewGCM, readFull,
    GCM.NonceSize, World.log, hrand, GCM.Seal]

/-- C9: when the request passes validation, `encryptPassword` succeeds, the QR
library renders the payload and the insert goes through (the connection works and
the new id is unused), `Create` returns and appends to the table a credential whose
owner is `ownerID`, whose SSID, security class and hidden flag are the request's,
whose `EncryptedPassword` is what `encryptPassword` returned for the request
password, and whose `QRCodeData` is what `GenerateWiFiQRCode` returns for the
plaintext password. -/
theorem Create_persists (L : Lib) (s : WifiService) (w : World) (ownerID : UUID)
    (req : CreateWifiRequest) (encrypted : String) (png : List Byte)
    (hvalid : IsValidSecurityType req.SecurityType = true)
    (hpw : req.SecurityType = SecurityNone ∨ req.Password ≠ "")
    (henc : (s.encryptPassword L w req.Password).1 = .ok encrypted)
    (hqr : L.qrEncode (buildWiFiString req.SSID req.Password req.SecurityType req.IsHidden)
      = some png)
    (hdb : w.dbErr = none)
    (hfresh : w.uuids w.uuidsDrawn ≠ uuidNil ∧ ∀ row ∈ w.rows, row.ID ≠ w.uuids w.uuidsDrawn) :
    ∃ c : WifiCredential,
      (s.Create L w ownerID req).1 = .ok c ∧
      (s.Create L w ownerID req).2.rows = w.rows ++ [c] ∧
      c.UserID = ownerID ∧ c.SSID = req.SSID ∧ c.SecurityType = req.SecurityType ∧
      c.IsHidden = req.IsHidden ∧
      c.EncryptedPassword = encrypted ∧
      (GenerateWiFiQRCode L (s.encryptPassword L w req.Password).2 req.SSID req.Password
        req.SecurityType req.IsHidden).1 = .ok c.QRCodeData ∧
      c.QRCodeData = base64.EncodeToString png := by
  obtain ⟨hrows, hdberr, huuids, hdrawn, _⟩ := encryptPassword_frame L s w req.Password
  have hpair : s.encryptPassword L w req.Password
      = (.ok encrypted, (s.encryptPassword L w req.Password).2) := by
    rw [← henc]
  have hdb1 : (s.encryptPassword L w req.Password).2.dbErr = none := by
    rw [hdberr, hdb]
  have hfresh1 : ∀ row ∈ (s.encryptPassword L w req.Password).2.rows,
      row.ID ≠ (s.encryptPassword L w req.Password).2.uuids
        (s.encryptPassword L w req.Password).2.uuidsDrawn := by
    rw [hrows, huuids, hdrawn]
    exact hfresh.2
  have hrun := Create_run L s w _ ownerID req encrypted png hvalid hpw hpair hqr hdb1 hfresh1
  refine ⟨_, congrArg Prod.fst hrun, ?_, rfl, rfl, rfl, rfl, rfl, ?_, rfl⟩
  · rw [hrun]
    simp only
    rw [hrows]
  · simp only [GenerateWiFiQRCode, hqr]

/-- C9 on a concrete request: `Home` with password `secret`, WPA2, for user 7. -/
theorem Create_persists_witness :
    (∃ c : WifiCredential,
      (testService.Create toyLib testWorld 7
        { SSID := "Home", Password := "secret", SecurityType := SecurityWPA2,
          IsHidden := false }).1 = .ok c ∧
      (testService.Create toyLib testWorld 7
        { SSID := "Home", Password := "secret", SecurityType := SecurityWPA2,
          IsHidden := false }).2.rows = testWorld.rows ++ [c] ∧
      c.UserID = 7 ∧ c.SSID = "Home" ∧ c.SecurityType = SecurityWPA2 ∧ c.IsHidden = false ∧
      c.EncryptedPassword = "BwECAwQFBgcICQoLqpyaqZyrNzc3Nzc3Nzc3Nzc3Nzc3Nw==" ∧
      (GenerateWiFiQRCode toyLib (testService.encryptPassword toyLib testWorld "secret").2
        "Home" "secret" SecurityWPA2 false).1 = .ok c.QRCodeData ∧
      c.QRCodeData
        = base64.EncodeToString (stringToBytes "WIFI:T:WPA2;S:Home;P:secret;H:;;")) ∧
    (testService.Create toyLib testWorld 7
        { SSID := "Home", Password := "secret", SecurityType := SecurityWPA2,
          IsHidden := false }).1
      = .ok
        { ID := 1000
          UserID := 7
          SSID := "Home"
          EncryptedPassword := "BwECAwQFBgcICQoLqpyaqZyrNzc3Nzc3Nzc3Nzc3Nzc3Nw=="
          SecurityType := "WPA2"
          IsHidden := false
          QRCodeData := "V0lGSTpUOldQQTI7UzpIb21lO1A6c2VjcmV0O0g6Ozs="
          CreatedAt := 1700000000
          UpdatedAt := 1700000000 } :=
  ⟨Create_persists toyLib testService testWorld 7
      { SSID := "Home", Password := "secret", SecurityType := SecurityWPA2, IsHidden := false }
      "BwECAwQFBgcICQoLqpyaqZyrNzc3Nzc3Nzc3Nzc3Nzc3Nw=="
      (stringToBytes "WIFI:T:WPA2;S:Home;P:secret;H:;;")
      (by decide) (by decide) (by decide) (by decide) rfl (by decide),
    by decide⟩

/-- C8, what the code does: `Create` for the open class `nopass` with a non-empty
password succeeds (32-byte key, a nonce available, QR rendering and insert going
through) and stores the sealed password, `base64(nonce ++ seal(nonce, password))`,
which is not the empty blob. -/
theorem Create_nopass_stores_password (L : Lib) (s : WifiService) (w : World) (ownerID : UUID)
    (ssid password : String) (hidden : Bool) (png : List Byte)
    (hp : password ≠ "") (hkey : s.encryptionKey.length = 32) (hrand : 12 ≤ w.rand.length)
    (hqr : L.qrEncode (buildWiFiString ssid password SecurityNone hidden) = some png)
    (hdb : w.dbErr = none)
    (hfresh : w.uuids w.uuidsDrawn ≠ uuidNil ∧ ∀ row ∈ w.rows, row.ID ≠ w.uuids w.uuidsDrawn) :
    ∃ c : WifiCredential,
      (s.Create L w ownerID
        { SSID := ssid, Password := password, SecurityType := SecurityNone,
          IsHidden := hidden }).1 = .ok c ∧
      (s.Create L w ownerID
        { SSID := ssid, Password := password, SecurityType := SecurityNone,
          IsHidden := hidden }).2.rows = w.rows ++ [c] ∧
      c.EncryptedPassword = base64.EncodeToString
        (w.rand.take 12 ++ L.gcmSeal s.encryptionKey (w.rand.take 12) (stringToBytes password)) ∧
      c.EncryptedPassword ≠ "" := by
  obtain ⟨hrows, hdberr, huuids, hdrawn, _⟩ := encryptPassword_frame L s w password
  have henc := encryptPassword_of_nonempty L s w password hkey hp hrand
  have hpair : s.encryptPassword L w password
      = (.ok (base64.EncodeToString (w.rand.take 12 ++
          L.gcmSeal s.encryptionKey (w.rand.take 12) (stringToBytes password))),
        (s.encryptPassword L w password).2) := by
    rw [← henc]
  have hdb1 : (s.encryptPassword L w password).2.dbErr = none := by
    rw [hdberr, hdb]
  have hfresh1 : ∀ row ∈ (s.encryptPassword L w password).2.rows,
      row.ID ≠ (s.encryptPassword L w password).2.uuids
        (s.encryptPassword L w password).2.uuidsDrawn := by
    rw [hrows, huuids, hdrawn]
    exact hfresh.2
  have hrun := Create_run L s w _ ownerID
    { SSID := ssid, Password := password, SecurityType := SecurityNone, IsHidden := hidden }
    _ png (show IsValidSecurityType SecurityNone = true by decide) (Or.inl rfl) hpair hqr hdb1
    hfresh1
  refine ⟨_, congrArg Prod.fst hrun, ?_, rfl, ?_⟩
  · rw [hrun]
    simp only
    rw [hrows]
  simp only
  apply base64.EncodeToString_ne_empty
  intro h
  have hl := congrArg List.length h
  rw [List.length_append, List.length_take, List.length_nil] at hl
  omega

/-- C8 on a concrete request: the open network `Guest` created with the password
`ignored` is stored with a non-empty blob that decrypts to `ignored`. -/
theorem Create_nopass_stores_password_witness :
    (∃ c : WifiCredential,
      (testService.Create toyLib testWorld 8
        { SSID := "Guest", Password := "ignored", SecurityType := SecurityNone,
          IsHidden := false }).1 = .ok c ∧
      (testService.Create toyLib testWorld 8
        { SSID := "Guest", Password := "ignored", SecurityType := SecurityNone,
          IsHidden := false }).2.rows = testWorld.rows ++ [c] ∧
      c.EncryptedPassword = base64.EncodeToString
        (testWorld.rand.take 12 ++ toyLib.gcmSeal testService.encryptionKey
          (testWorld.rand.take 12) (stringToBytes "ignored")) ∧
      c.EncryptedPassword ≠ "") ∧
    (testService.Create toyLib testWorld 8
        { SSID := "Guest", Password := "ignored", SecurityType := SecurityNone,
          IsHidden := false }).1
      = .ok
        { ID := 1000
          UserID := 8
          SSID := "Guest"
          EncryptedPassword := "BwECAwQFBgcICQoLoJ6lpqmcmzc3Nzc3Nzc3Nzc3Nzc3Nzc="
          SecurityType := "nopass"
          IsHidden := false
          QRCodeData := "V0lGSTpUOm5vcGFzcztTOkd1ZXN0O1A6O0g6Ozs="
          CreatedAt := 1700000000
          UpdatedAt := 1700000000 } ∧
    (testService.DecryptPassword toyLib testWorld
      "BwECAwQFBgcICQoLoJ6lpqmcmzc3Nzc3Nzc3Nzc3Nzc3Nzc=").1 = .ok "ignored" :=
  ⟨Create_nopass_stores_password toyLib testService testWorld 8 "Guest" "ignored" false
      (stringToBytes "WIFI:T:nopass;S:Guest;P:;H:;;")
      (by decide) (by decide) (by decide) (by decide) rfl (by decide),
    by decide, by decide⟩

end services

/-! ## QR payload string -/

namespace services

open models

/-- The accumulating loop of `escapeWiFiString` appends, for each character, the
one or two characters the specification names. -/
theorem escape_foldl (l : List Char) (acc : String) :
    l.foldl
      (fun result char =>
        if char = '\\' ∨ char = ';' ∨ char = ',' ∨ char = ':' ∨ char = '"' then
          result ++ ("\\" ++ String.singleton char)
        else
          result ++ String.singleton char)
      acc
    = acc ++ specEscape ⟨l⟩ := by
  induction l generalizing acc with
  | nil =>
    apply String.ext
    simp [specEscape]
  | cons c l ih =>
    rw [List.foldl_cons, ih]
    apply String.ext
    by_cases h : c = '\\' ∨ c = ';' ∨ c = ',' ∨ c = ':' ∨ c = '"'
    · have hm : c ∈ ['\\', ';', ',', ':', '"'] := by simpa using h
      simp [specEscape, h, hm, String.singleton]
    · have hm : ¬ c ∈ ['\\', ';', ',', ':', '"'] := by simpa using h
      simp [specEscape, h, hm, String.singleton]

/-- The code's escaping is the escaping the specification describes. -/
theorem escapeWiFiString_eq_specEscape (s : String) : escapeWiFiString s = specEscape s := by
  unfold escapeWiFiString
  rw [escape_foldl]
  apply String.ext
  simp

/-- Reading a backslash and the character after it. -/
theorem unescapeRunes_backslash (d : Char) (rest : List Char) :
    unescapeRunes ('\\' :: d :: rest) = d :: unescapeRunes rest := by
  simp [unescapeRunes]

/-- Reading a character other than the backslash. -/
theorem unescapeRunes_cons_plain (c : Char) (rest : List Char) (hc : c ≠ '\\') :
    unescapeRunes (c :: rest) = c :: unescapeRunes rest := by
  cases rest <;> simp [unescapeRunes, hc]

/-- Dropping the escaping backslashes of an escaped text gives the text back. -/
theorem unescapeRunes_specEscape (l : List Char) :
    unescapeRunes (l.flatMap fun c => if c ∈ ['\\', ';', ',', ':', '"'] then ['\\', c] else [c])
      = l := by
  induction l with
  | nil => simp [unescapeRunes]
  | cons c l ih =>
    by_cases hm : c ∈ ['\\', ';', ',', ':', '"']
    · simp only [List.flatMap_cons, hm, if_true, List.cons_append, List.nil_append]
      rw [unescapeRunes_backslash, ih]
    · have hc : c ≠ '\\' := by
        intro h
        apply hm
        simp [h]
      simp only [List.flatMap_cons, hm, if_false, List.cons_append, List.nil_append]
      rw [unescapeRunes_cons_plain c _ hc, ih]

/-- A text without any of the five characters is its own escaping. -/
theorem specEscape_of_plain (l : List Char)
    (h : ∀ c ∈ l, c ≠ '\\' ∧ c ≠ ';' ∧ c ≠ ',' ∧ c ≠ ':' ∧ c ≠ '"') :
    (l.flatMap fun c => if c ∈ ['\\', ';', ',', ':', '"'] then ['\\', c] else [c]) = l := by
  induction l with
  | nil => simp
  | cons c l ih =>
    have hc := h c (by simp)
    have hm : ¬ c ∈ ['\\', ';', ',', ':', '"'] := by
      simp [hc.1, hc.2.1, hc.2.2.1, hc.2.2.2.1, hc.2.2.2.2]
    have hl := ih (fun d hd => h d (by simp [hd]))
    simp only [List.flatMap_cons, hm, if_false, List.cons_append, List.nil_append, hl]

/-- C2: for a security class among WPA, WPA2 and WEP, `buildWiFiString` returns
exactly `WIFI:T:<security>;S:<E(ssid)>;P:<E(password)>;H:<h>;;`, where `E` puts a
backslash before each of the characters `\ ; , : "` and copies every other
character in order, and `h` is `true` for a hidden network and empty otherwise. -/
theorem buildWiFiString_secured (ssid password : String) (security : SecurityType)
    (hidden : Bool)
    (hsec : security = SecurityWPA ∨ security = SecurityWPA2 ∨ security = SecurityWEP) :
    buildWiFiString ssid password security hidden =
      "WIFI:T:" ++ security ++ ";S:" ++ specEscape ssid ++ ";P:" ++ specEscape password ++
        ";H:" ++ (if hidden then "true" else "") ++ ";;" := by
  have hne : security ≠ SecurityNone := by
    rcases hsec with h | h | h <;> rw [h] <;> decide
  simp only [buildWiFiString, hne, if_false, escapeWiFiString_eq_specEscape]

/-- C2, the specification's example: ssid `Home;Net`, password `p:a"ss`, WPA2, not
hidden. -/
theorem buildWiFiString_secured_witness :
    buildWiFiString "Home;Net" "p:a\"ss" SecurityWPA2 false
      = "WIFI:T:WPA2;S:Home\\;Net;P:p\\:a\\\"ss;H:;;" :=
  (buildWiFiString_secured "Home;Net" "p:a\"ss" SecurityWPA2 false (Or.inr (Or.inl rfl))).trans
    (by decide)

/-- C3: `escapeWiFiString` only prefixes a backslash to each occurrence of
`\ ; , : "`: dropping those backslashes gives the input back, the result is the
character-by-character escaping of the specification, and a text with none of the
five characters is returned unchanged. -/
theorem escapeWiFiString_roundtrip (s : String) :
    unescape (escapeWiFiString s) = s ∧
    escapeWiFiString s = specEscape s ∧
    ((∀ c ∈ s.data, c ≠ '\\' ∧ c ≠ ';' ∧ c ≠ ',' ∧ c ≠ ':' ∧ c ≠ '"') →
      escapeWiFiString s = s) := by
  refine ⟨?_, escapeWiFiString_eq_specEscape s, ?_⟩
  · rw [escapeWiFiString_eq_specEscape]
    apply String.ext
    simp only [unescape, specEscape]
    exact unescapeRunes_specEscape s.data
  · intro h
    rw [escapeWiFiString_eq_specEscape]
    apply String.ext
    simp only [specEscape]
    exact specEscape_of_plain s.data h

/-- C3 on concrete texts: one with characters to escape, one without. -/
theorem escapeWiFiString_roundtrip_witness :
    escapeWiFiString "a\\b;c,d:e\"f" = "a\\\\b\\;c\\,d\\:e\\\"f" ∧
    unescape (escapeWiFiString "a\\b;c,d:e\"f") = "a\\b;c,d:e\"f" ∧
    escapeWiFiString "Guest-5G" = "Guest-5G" :=
  ⟨by decide, (escapeWiFiString_roundtrip "a\\b;c,d:e\"f").1,
    (escapeWiFiString_roundtrip "Guest-5G").2.2 (by decide)⟩

/-- C4: for the open class `nopass`, `buildWiFiString` renders the security token
`nopass` and an empty `P:` field whatever the password is; the specification's
example is ssid `Guest` with password `ignored`. -/
theorem buildWiFiString_nopass (ssid password : String) (hidden : Bool) :
    buildWiFiString ssid password SecurityNone hidden =
      "WIFI:T:nopass;S:" ++ escapeWiFiString ssid ++ ";P:;H:" ++
        (if hidden then "true" else "") ++ ";;" ∧
    (∀ password2 : String,
      buildWiFiString ssid password2 SecurityNone hidden =
        buildWiFiString ssid password SecurityNone hidden) ∧
    buildWiFiString "Guest" "ignored" SecurityNone false = "WIFI:T:nopass;S:Guest;P:;H:;;" := by
  refine ⟨?_, ?_, by decide⟩
  · simp only [buildWiFiString, if_true]
    apply String.ext
    simp [SecurityNone]
  · intro password2
    simp only [buildWiFiString, if_true]

end services

/-! ## Access service: what Delete changes -/

namespace repositories

open models

/-- Removing the rows of an id that no row carries removes nothing. -/
theorem filter_of_count_zero (rows : List WifiCredential) (id : UUID)
    (h : rows.countP (fun row => row.ID = id) = 0) :
    rows.filter (fun row => ¬ row.ID = id) = rows := by
  rw [List.countP_eq_zero] at h
  rw [List.filter_eq_self]
  intro row hrow
  simpa using h row hrow

end repositories

namespace services

open models

/-- C11: `Delete` changes the table only when it succeeds. When it returns no error
the table is the previous one without the rows of the given id: every row of another
id is kept, no row of that id is left, and a following `GetByID` on that id fails with
`ErrWifiNotFound`. When it returns any error, `ErrWifiNotFound` and
`ErrUnauthorizedAccess` included, the table is unchanged. -/
theorem Delete_frame (s : WifiService) (w : World) (id userID : UUID) (isAdmin : Bool) :
    ((s.Delete w id userID isAdmin).1 = none →
      (s.Delete w id userID isAdmin).2.rows = w.rows.filter (fun row => ¬ row.ID = id) ∧
      (∀ row : WifiCredential, row.ID ≠ id →
        (row ∈ (s.Delete w id userID isAdmin).2.rows ↔ row ∈ w.rows)) ∧
      (∀ row ∈ (s.Delete w id userID isAdmin).2.rows, row.ID ≠ id) ∧
      (∀ (callerID : UUID) (callerIsAdmin : Bool),
        (s.GetByID (s.Delete w id userID isAdmin).2 id callerID callerIsAdmin).1
          = .error .ErrWifiNotFound)) ∧
    ((s.Delete w id userID isAdmin).1 = some .ErrWifiNotFound ∨
        (s.Delete w id userID isAdmin).1 = some .ErrUnauthorizedAccess →
      (s.Delete w id userID isAdmin).2.rows = w.rows) ∧
    ((s.Delete w id userID isAdmin).1 ≠ none →
      (s.Delete w id userID isAdmin).2.rows = w.rows) := by
  have hfail : (s.Delete w id userID isAdmin).1 ≠ none →
      (s.Delete w id userID isAdmin).2.rows = w.rows := by
    unfold WifiService.Delete repositories.WifiRepository.FindByID repositories.dbFirst
      repositories.WifiRepository.Delete repositories.dbDelete
    cases hdb : w.dbErr with
    | some e => simp [World.log, hdb]
    | none =>
      cases hf : w.rows.find? (fun row => row.ID = id) with
      | none => simp [World.log, hdb, hf]
      | some c =>
        simp only [World.log, hdb, hf]
        split_ifs with hauth hz
        · intro _
          rfl
        · intro _
          exact repositories.filter_of_count_zero w.rows id hz
        · intro h
          exact absurd rfl h
  have hok : (s.Delete w id userID isAdmin).1 = none →
      (s.Delete w id userID isAdmin).2.rows = w.rows.filter (fun row => ¬ row.ID = id) ∧
      (s.Delete w id userID isAdmin).2.dbErr = none := by
    unfold WifiService.Delete repositories.WifiRepository.FindByID repositories.dbFirst
      repositories.WifiRepository.Delete repositories.dbDelete
    cases hdb : w.dbErr with
    | some e => simp [World.log, hdb]
    | none =>
      cases hf : w.rows.find? (fun row => row.ID = id) with
      | none => simp [World.log, hdb, hf]
      | some c =>
        simp only [World.log, hdb, hf]
        split_ifs with hauth hz
        · intro h
          cases h
        · intro h
          cases h
        · intro _
          exact ⟨rfl, rfl⟩
  refine ⟨?_, ?_, hfail⟩
  · intro hnone
    obtain ⟨hrows, hdb⟩ := hok hnone
    have hgone : ∀ row ∈ (s.Delete w id userID isAdmin).2.rows, row.ID ≠ id := by
      rw [hrows]
      intro row hrow
      simpa using (List.mem_filter.mp hrow).2
    refine ⟨hrows, ?_, hgone, ?_⟩
    · intro row hne
      rw [hrows, List.mem_filter]
      simp [hne]
    · intro callerID callerIsAdmin
      unfold WifiService.GetByID
      rw [repositories.FindByID_of_absent _ id hdb hgone]
  · intro h
    apply hfail
    rcases h with h | h <;> rw [h] <;> simp

/-- C11 on the stored table: the owner deletes record 41 and only record 42 is left;
user 8 and a lookup of the unknown id 99 leave the table as it was. -/
theorem Delete_frame_witness :
    ((testService.Delete storedWorld 41 7 false).2.rows = [cafeCredential] ∧
      (testService.GetByID (testService.Delete storedWorld 41 7 false).2 41 7 false).1
        = .error .ErrWifiNotFound) ∧
    (testService.Delete storedWorld 41 8 false).2.rows = storedWorld.rows ∧
    (testService.Delete storedWorld 99 7 true).2.rows = storedWorld.rows :=
  ⟨⟨((Delete_frame testService storedWorld 41 7 false).1 (by decide)).1.trans (by decide),
      ((Delete_frame testService storedWorld 41 7 false).1 (by decide)).2.2.2 7 false⟩,
    (Delete_frame testService storedWorld 41 8 false).2.1 (Or.inr (by decide)),
    (Delete_frame testService storedWorld 99 7 true).2.1 (Or.inl (by decide))⟩

end services

/-! ## Access service: listing by owner -/

namespace services

open models

/-- C12: on any table, and so on any table reached by creates of several owners in
any order, `GetAllByUser` (the database answering) returns exactly the rows whose
owner is `ownerID`, none of another owner, latest creation time first. -/
theorem GetAllByUser_owner_only (L : Lib) (s : WifiService) (w : World)
    (creates : List (UUID × CreateWifiRequest)) (ownerID : UUID)
    (hdb : (createAll L s w creates).dbErr = none) :
    ∃ result : List WifiCredential,
      (s.GetAllByUser (createAll L s w creates) ownerID).1 = .ok result ∧
      result.Perm ((createAll L s w creates).rows.filter (fun row => row.UserID = ownerID)) ∧
      (∀ c : WifiCredential,
        c ∈ result ↔ c ∈ (createAll L s w creates).rows ∧ c.UserID = ownerID) ∧
      (∀ c ∈ result, c.UserID = ownerID) ∧
      result.Pairwise (fun a b => b.CreatedAt ≤ a.CreatedAt) := by
  haveI : IsTotal WifiCredential repositories.createdAtDesc :=
    ⟨fun a b => Nat.le_total b.CreatedAt a.CreatedAt⟩
  haveI : IsTrans WifiCredential repositories.createdAtDesc :=
    ⟨fun _ _ _ hab hbc => Nat.le_trans hbc hab⟩
  refine ⟨((createAll L s w creates).rows.filter
    (fun row => row.UserID = ownerID)).insertionSort repositories.createdAtDesc, ?_,
    List.perm_insertionSort _ _, ?_, ?_, ?_⟩
  · simp only [WifiService.GetAllByUser, repositories.WifiRepository.FindByUserID,
      repositories.dbFindWhereUserID, World.log, hdb]
  · intro c
    rw [List.mem_insertionSort, List.mem_filter]
    simp
  · intro c hc
    rw [List.mem_insertionSort, List.mem_filter] at hc
    simpa using hc.2
  · exact List.sorted_insertionSort repositories.createdAtDesc _

/-- C12 on a run: user 7 and user 8 each create a credential on the stored table;
the list of user 7 holds the new credential first, then the older one, and nothing
of user 8. -/
theorem GetAllByUser_owner_only_witness :
    (∃ result : List WifiCredential,
      (testService.GetAllByUser
        (createAll toyLib testService storedWorld
          [(8, { SSID := "Bar", Password := "", SecurityType := SecurityNone, IsHidden := true }),
            (7, { SSID := "Office", Password := "secret", SecurityType := SecurityWPA2,
                  IsHidden := false })]) 7).1 = .ok result ∧
      result.Perm ((createAll toyLib testService storedWorld
          [(8, { SSID := "Bar", Password := "", SecurityType := SecurityNone, IsHidden := true }),
            (7, { SSID := "Office", Password := "secret", SecurityType := SecurityWPA2,
                  IsHidden := false })]).rows.filter (fun row => row.UserID = 7)) ∧
      (∀ c : WifiCredential,
        c ∈ result ↔ c ∈ (createAll toyLib testService storedWorld
          [(8, { SSID := "Bar", Password := "", SecurityType := SecurityNone, IsHidden := true }),
            (7, { SSID := "Office", Password := "secret", SecurityType := SecurityWPA2,
                  IsHidden := false })]).rows ∧ c.UserID = 7) ∧
      (∀ c ∈ result, c.UserID = 7) ∧
      result.Pairwise (fun a b => b.CreatedAt ≤ a.CreatedAt)) ∧
    ((testService.GetAllByUser
        (createAll toyLib testService storedWorld
          [(8, { SSID := "Bar", Password := "", SecurityType := SecurityNone, IsHidden := true }),
            (7, { SSID := "Office", Password := "secret", SecurityType := SecurityWPA2,
                  IsHidden := false })]) 7).1.toOption.map
      (fun result => result.map (fun c => (c.ID, c.UserID, c.SSID, c.CreatedAt))))
      = some [(1001, 7, "Office", 1700000000), (41, 7, "Home", 1600000000)] :=
  ⟨GetAllByUser_owner_only toyLib testService storedWorld
      [(8, { SSID := "Bar", Password := "", SecurityType := SecurityNone, IsHidden := true }),
        (7, { SSID := "Office", Password := "secret", SecurityType := SecurityWPA2,
              IsHidden := false })] 7 rfl,
    by decide⟩

end services

/-! ## Public representation -/

namespace models

/-- C13: the public representation consists of id, owner, SSID, security class,
hidden flag, QR image and the two times, each equal to the credential's; it has no
field for the encrypted secret, so credentials that differ only in
`EncryptedPassword` have the same public representation. -/
theorem ToPublic_without_secret (w : WifiCredential) :
    w.ToPublic
      = { ID := w.ID
          UserID := w.UserID
          SSID := w.SSID
          SecurityType := w.SecurityType
          IsHidden := w.IsHidden
          QRCodeData := w.QRCodeData
          CreatedAt := w.CreatedAt
          UpdatedAt := w.UpdatedAt } ∧
    (∀ p : PublicWifiCredential,
      p = { ID := p.ID
            UserID := p.UserID
            SSID := p.SSID
            SecurityType := p.SecurityType
            IsHidden := p.IsHidden
            QRCodeData := p.QRCodeData
            CreatedAt := p.CreatedAt
            UpdatedAt := p.UpdatedAt }) ∧
    (∀ secret : String, ({ w with EncryptedPassword := secret } : WifiCredential).ToPublic
      = w.ToPublic) ∧
    (∀ w2 : WifiCredential,
      w2.ID = w.ID → w2.UserID = w.UserID → w2.SSID = w.SSID →
      w2.SecurityType = w.SecurityType → w2.IsHidden = w.IsHidden →
      w2.QRCodeData = w.QRCodeData → w2.CreatedAt = w.CreatedAt → w2.UpdatedAt = w.UpdatedAt →
      w2.ToPublic = w.ToPublic) := by
  refine ⟨rfl, fun _ => rfl, fun _ => rfl, ?_⟩
  intro w2 h1 h2 h3 h4 h5 h6 h7 h8
  simp only [WifiCredential.ToPublic, h1, h2, h3, h4, h5, h6, h7, h8]

/-- C13 on the stored credential of user 7: another encrypted secret gives the same
public representation. -/
theorem ToPublic_without_secret_witness :
    ({ homeCredential with EncryptedPassword := "AAAA" } : WifiCredential).ToPublic
      = homeCredential.ToPublic ∧
    homeCredential.ToPublic.SSID = "Home" :=
  ⟨(ToPublic_without_secret homeCredential).2.2.2
      { homeCredential with EncryptedPassword := "AAAA" } rfl rfl rfl rfl rfl rfl rfl rfl,
    by decide⟩

end models

/-! ## Credential cipher: short and empty blobs -/

namespace services

open models

/-- C15: for a blob that is not empty and whose decoded bytes are fewer than the
nonce size, `DecryptPassword` fails with an error and yields no plaintext, whatever
the key is; under a key that makes a cipher the error is `ciphertext too short`, and
the cipher is never asked to open anything. When the bytes are enough, the nonce
taken from them has exactly the nonce size. -/
theorem DecryptPassword_short_blob (L : Lib) (s : WifiService) (w : World) (blob : String)
    (bytes : List Byte) (hne : blob ≠ "") (hdec : base64.DecodeString blob = .ok bytes)
    (hshort : bytes.length < 12) :
    (∃ err : Err, (s.DecryptPassword L w blob).1 = .error err) ∧
    ((s.encryptionKey.length = 16 ∨ s.encryptionKey.length = 24 ∨
        s.encryptionKey.length = 32) →
      (s.DecryptPassword L w blob).1 = .error (.New "ciphertext too short")) ∧
    (∀ L2 : Lib, (s.DecryptPassword L2 w blob).1 = (s.DecryptPassword L w blob).1) ∧
    (∀ longer : List Byte, 12 ≤ longer.length → (longer.take 12).length = 12) := by
  have hrun : ∀ L2 : Lib, (s.DecryptPassword L2 w blob).1
      = if s.encryptionKey.length = 16 ∨ s.encryptionKey.length = 24 ∨
          s.encryptionKey.length = 32 then
          .error (.New "ciphertext too short")
        else
          .error (.Wrap "failed to create cipher" (.External "crypto/aes: invalid key size")) := by
    intro L2
    simp only [WifiService.DecryptPassword, hne, if_false, hdec, aesNewCipher, cipherNewGCM,
      GCM.NonceSize]
    split_ifs <;> simp [hshort]
  refine ⟨?_, ?_, ?_, ?_⟩
  · rw [hrun L]
    split_ifs
    · exact ⟨_, rfl⟩
    · exact ⟨_, rfl⟩
  · intro hkey
    rw [hrun L, if_pos hkey]
  · intro L2
    rw [hrun L2, hrun L]
  · intro longer hlen
    rw [List.length_take]
    omega

/-- C15 on a concrete blob: `AAAAAAAA` decodes to six zero bytes. -/
theorem DecryptPassword_short_blob_witness :
    (testService.DecryptPassword toyLib testWorld "AAAAAAAA").1
      = .error (.New "ciphertext too short") :=
  (DecryptPassword_short_blob toyLib testService testWorld "AAAAAAAA" [0, 0, 0, 0, 0, 0]
    (by decide) (by decide) (by decide)).2.1 (by decide)

/-- C16: `encryptPassword` of the empty password returns the empty blob without
error, and `DecryptPassword` of the empty blob returns the empty text without
error, for every key and every library; neither reads the random source, and the
only call recorded is the call itself. -/
theorem empty_password_empty_blob (L : Lib) (s : WifiService) (w : World) :
    s.encryptPassword L w "" = (.ok "", w.log .encryptPassword) ∧
    s.DecryptPassword L w "" = (.ok "", w.log .DecryptPassword) ∧
    (s.encryptPassword L w "").2.rand = w.rand ∧
    (s.encryptPassword L w "").2.trace = w.trace ++ [Call.encryptPassword] ∧
    (s.DecryptPassword L w "").2.rand = w.rand := by
  refine ⟨?_, ?_, ?_, ?_, ?_⟩ <;>
    simp [WifiService.encryptPassword, WifiService.DecryptPassword, World.log]

end services

/-! ## Cipher key -/

namespace routes

open services config

/-- The outcome of `validate` in terms of the two secrets. -/
theorem validate_ok_iff (c : Config) :
    c.validate = .ok () ↔ (32 ≤ len c.JWTSecret ∧ len c.EncryptionKey = 32) := by
  have hempty : len "" = 0 := by decide
  unfold Config.validate
  by_cases h1 : c.JWTSecret = ""
  · simp [h1, hempty]
  · by_cases h2 : len c.JWTSecret < 32
    · simp only [h1, h2, if_true, if_false]
      constructor
      · intro h
        cases h
      · intro h
        omega
    · by_cases h3 : c.EncryptionKey = ""
      · simp [h1, h2, h3, hempty]
      · by_cases h4 : len c.EncryptionKey = 32
        · simp only [h1, h2, h3, h4, if_false, ne_eq, not_true_eq_false]
          simp
          omega
        · simp [h1, h2, h3, h4]

/-- C17, as the code has it: the key length is checked at startup and not by
`NewWifiService`. `NewWifiService` accepts every key and keeps its bytes;
`validate` passes exactly when the JWT secret has at least 32 bytes and the cipher
key exactly 32; `Load` ends the process otherwise, so the service wired at startup
holds a 32-byte key; and under a key of another length than 16, 24 or 32 bytes
`encryptPassword` of a non-empty password fails with `failed to create cipher`. -/
theorem key_checked_at_startup (env : String → String) :
    (∀ key : String, (NewWifiService key).encryptionKey = stringToBytes key) ∧
    (∀ c : Config, c.validate = .ok () ↔ (32 ≤ len c.JWTSecret ∧ len c.EncryptionKey = 32)) ∧
    (len (getEnv env "ENCRYPTION_KEY" "") ≠ 32 → ∃ message, wifiServiceAtStartup env = .error message) ∧
    (∀ s : WifiService, wifiServiceAtStartup env = .ok s → s.encryptionKey.length = 32) ∧
    (∀ (L : Lib) (s : WifiService) (w : World) (password : String),
      ¬ (s.encryptionKey.length = 16 ∨ s.encryptionKey.length = 24 ∨
        s.encryptionKey.length = 32) → password ≠ "" →
      (s.encryptPassword L w password).1
        = .error (.Wrap "failed to create cipher" (.External "crypto/aes: invalid key size"))) := by
  refine ⟨fun _ => rfl, validate_ok_iff, ?_, ?_, ?_⟩
  · intro hlen
    unfold wifiServiceAtStartup Load
    simp only
    split
    · rename_i message hload
      exact ⟨message, rfl⟩
    · rename_i cfg hload
      split at hload
      · cases hload
      · rename_i hval
        have hok := (validate_ok_iff _).mp (by rw [hval])
        exact absurd hok.2 hlen
  · intro s hs
    unfold wifiServiceAtStartup Load at hs
    simp only at hs
    split at hs
    · cases hs
    · rename_i cfg hload
      split at hload
      · cases hload
      · rename_i hval
        have hok := (validate_ok_iff _).mp (by rw [hval])
        cases hload
        cases hs
        exact hok.2
  · intro L s w password hkey hp
    simp [WifiService.encryptPassword, hp, aesNewCipher, hkey]

/-- C17 on concrete environments: a 32-byte key starts the service, a 16-byte key
ends the process at startup. -/
theorem key_checked_at_startup_witness :
    (∃ message, wifiServiceAtStartup shortKeyEnv = .error message) ∧
    (wifiServiceAtStartup testEnv).toOption.map (fun s => s.encryptionKey.length) = some 32 ∧
    wifiServiceAtStartup shortKeyEnv
      = .error "ENCRYPTION_KEY must be exactly 32 characters (256 bits) for AES-256" :=
  ⟨(key_checked_at_startup shortKeyEnv).2.2.1 (by decide), by decide, by decide⟩

/-- C17 as stated fails: `NewWifiService` with a 16-byte key returns a service that
holds this key, and its `encryptPassword` seals a password under it. -/
theorem NewWifiService_short_key_counterexample :
    (NewWifiService "0123456789abcdef").encryptionKey.length = 16 ∧
    ((NewWifiService "0123456789abcdef").encryptPassword toyLib testWorld "secret").1
      = .ok "BwECAwQFBgcICQoLqpyaqZyrNzc3Nzc3Nzc3Nzc3Nzc3Nw==" := by
  decide

end routes

/-! ## Length limits of a request -/

namespace services

open models

/-- What `Create` does to the table: it fails and leaves the rows as they are, or it
returns a credential with the request's SSID and appends it. -/
theorem Create_rows (L : Lib) (s : WifiService) (w : World) (ownerID : UUID)
    (req : CreateWifiRequest) :
    ((∃ err : Err, (s.Create L w ownerID req).1 = .error err) ∧
      (s.Create L w ownerID req).2.rows = w.rows) ∨
    (∃ c : WifiCredential, (s.Create L w ownerID req).1 = .ok c ∧
      (s.Create L w ownerID req).2.rows = w.rows ++ [c] ∧ c.SSID = req.SSID) := by
  obtain ⟨hrows, -, -, -, -⟩ := encryptPassword_frame L s w req.Password
  unfold WifiService.Create
  by_cases h1 : ¬ IsValidSecurityType req.SecurityType = true
  · rw [if_pos h1]
    exact Or.inl ⟨⟨_, rfl⟩, rfl⟩
  rw [if_neg h1]
  by_cases h2 : req.SecurityType ≠ SecurityNone ∧ req.Password = ""
  · rw [if_pos h2]
    exact Or.inl ⟨⟨_, rfl⟩, rfl⟩
  rw [if_neg h2]
  · revert hrows
    generalize s.encryptPassword L w req.Password = res
    obtain ⟨r, w1⟩ := res
    intro hrows
    simp only at hrows
    cases r with
    | error e => exact Or.inl ⟨⟨_, rfl⟩, hrows⟩
    | ok encrypted =>
      simp only [GenerateWiFiQRCode]
      cases hq : L.qrEncode (buildWiFiString req.SSID req.Password req.SecurityType
          req.IsHidden) with
      | none => exact Or.inl ⟨⟨_, rfl⟩, hrows⟩
      | some png =>
        simp only [repositories.WifiRepository.Create, repositories.dbCreate, uuidNew,
          World.log]
        cases hdb : w1.dbErr with
        | some e =>
          simp only [if_true]
          exact Or.inl ⟨⟨_, rfl⟩, hrows⟩
        | none =>
          simp only [if_true]
          split_ifs with hany
          · exact Or.inl ⟨⟨_, rfl⟩, hrows⟩
          · refine Or.inr ⟨_, rfl, ?_, rfl⟩
            simp only [hrows]

end services

namespace handlers

open models services

/-- A text is empty exactly when it has no character. -/
theorem string_eq_empty_iff (t : String) : t = "" ↔ t.length = 0 := by
  constructor
  · intro h
    rw [h]
    rfl
  · intro h
    apply String.ext
    exact List.length_eq_zero.mp h

/-- The binding tags of `SSID` pass exactly for 1 to 32 characters. -/
theorem ssidFailedTag_none_iff (ssid : String) :
    ssidFailedTag ssid = none ↔ (1 ≤ ssid.length ∧ ssid.length ≤ 32) := by
  unfold ssidFailedTag
  by_cases h0 : ssid = ""
  · have hl := (string_eq_empty_iff ssid).mp h0
    simp only [h0, if_true]
    constructor
    · intro h
      cases h
    · intro h
      rw [h0] at hl
      omega
  · have hl : ssid.length ≠ 0 := fun h => h0 ((string_eq_empty_iff ssid).mpr h)
    simp only [h0, if_false]
    split_ifs with h1 h2
    · omega
    · constructor
      · intro h
        cases h
      · intro h
        omega
    · constructor
      · intro _
        omega
      · intro _
        rfl

/-- The binding tag of `Password` passes exactly for at most 63 characters. -/
theorem passwordFailedTag_none_iff (password : String) :
    passwordFailedTag password = none ↔ password.length ≤ 63 := by
  unfold passwordFailedTag
  split_ifs with h
  · constructor
    · intro h2
      cases h2
    · intro h2
      omega
  · constructor
    · intro _
      omega
    · intro _
      rfl

/-- A request that passes the binding validation obeys the limits of its tags. -/
theorem validateStruct_ok (req : CreateWifiRequest) (h : validateStruct req = .ok ()) :
    1 ≤ req.SSID.length ∧ req.SSID.length ≤ 32 ∧ req.Password.length ≤ 63 := by
  unfold validateStruct at h
  cases hs : ssidFailedTag req.SSID with
  | some tag => simp [hs] at h
  | none =>
    cases hp : passwordFailedTag req.Password with
    | some tag => simp [hs, hp] at h
    | none =>
      have h1 := (ssidFailedTag_none_iff req.SSID).mp hs
      have h2 := (passwordFailedTag_none_iff req.Password).mp hp
      exact ⟨h1.1, h1.2, h2⟩

/-- A request that breaks a length limit fails the binding validation. -/
theorem validateStruct_error (req : CreateWifiRequest)
    (h : req.SSID.length < 1 ∨ 32 < req.SSID.length ∨ 63 < req.Password.length) :
    ∃ err : Err, validateStruct req = .error err := by
  cases hv : validateStruct req with
  | error err => exact ⟨err, rfl⟩
  | ok u =>
    cases u
    have := validateStruct_ok req hv
    omega

end handlers

/-- A rune has at most four bytes. -/
theorem utf8EncodeRune_length_le (c : Char) : (utf8EncodeRune c).length ≤ 4 := by
  unfold utf8EncodeRune
  simp only
  split_ifs <;> simp

/-- A text has at most four bytes for each character. -/
theorem stringToBytes_length_le (t : String) : (stringToBytes t).length ≤ 4 * t.length := by
  obtain ⟨l⟩ := t
  unfold stringToBytes
  simp only [String.length]
  induction l with
  | nil => simp
  | cons c l ih =>
    rw [List.flatMap_cons, List.length_append, List.length_cons]
    have := utf8EncodeRune_length_le c
    omega

namespace handlers

open models services

/-- C18, as the code has it: the length limits are those of the binding tags, checked
by the handler before it calls the service, and they count characters. A decoded
request whose SSID is empty or longer than 32 characters, or whose password is
longer than 63 characters, is answered without any change to the environment (with
status 400 for an authenticated caller); every credential the handler adds to the
table carries the SSID of a request with 1 to 32 characters (so at most 128 bytes)
and a password of at most 63 characters (at most 252 bytes); and an answer with
status 201 is given only to such a request. -/
theorem handler_Create_length_limits (L : Lib) (s : WifiService) (w : World)
    (userID : Option UUID) (decoded : Option CreateWifiRequest) :
    (∀ req : CreateWifiRequest, decoded = some req →
      (req.SSID.length < 1 ∨ 32 < req.SSID.length ∨ 63 < req.Password.length) →
      (WifiHandler.Create L s w userID decoded).2 = w ∧
      (userID.isSome = true → (WifiHandler.Create L s w userID decoded).1.status = 400)) ∧
    (∀ c : WifiCredential, c ∈ (WifiHandler.Create L s w userID decoded).2.rows → c ∉ w.rows →
      ∃ req : CreateWifiRequest, decoded = some req ∧ c.SSID = req.SSID ∧
        1 ≤ req.SSID.length ∧ req.SSID.length ≤ 32 ∧ req.Password.length ≤ 63 ∧
        (stringToBytes req.SSID).length ≤ 128 ∧ (stringToBytes req.Password).length ≤ 252) ∧
    ((WifiHandler.Create L s w userID decoded).1.status = 201 →
      ∃ req : CreateWifiRequest, decoded = some req ∧
        1 ≤ req.SSID.length ∧ req.SSID.length ≤ 32 ∧ req.Password.length ≤ 63) := by
  refine ⟨?_, ?_, ?_⟩
  · intro req hreq hbad
    obtain ⟨err, herr⟩ := validateStruct_error req hbad
    subst hreq
    cases userID with
    | none => exact ⟨rfl, fun h => by cases h⟩
    | some uid =>
      refine ⟨?_, fun _ => ?_⟩ <;> simp only [WifiHandler.Create, ShouldBindJSON, herr]
  · intro c hc hnew
    cases userID with
    | none => exact absurd hc hnew
    | some uid =>
      cases decoded with
      | none => exact absurd hc hnew
      | some req =>
        cases hv : validateStruct req with
        | error err =>
          simp only [WifiHandler.Create, ShouldBindJSON, hv] at hc
          exact absurd hc hnew
        | ok u =>
          cases u
          obtain ⟨h1, h2, h3⟩ := validateStruct_ok req hv
          have hb1 := stringToBytes_length_le req.SSID
          have hb2 := stringToBytes_length_le req.Password
          simp only [WifiHandler.Create, ShouldBindJSON, hv] at hc
          have hrows : c ∈ (s.Create L w uid req).2.rows := by
            revert hc
            generalize s.Create L w uid req = res
            obtain ⟨r, w1⟩ := res
            cases r <;> exact fun h => h
          rcases Create_rows L s w uid req with ⟨_, hsame⟩ | ⟨c2, _, hadd, hssid⟩
          · rw [hsame] at hrows
            exact absurd hrows hnew
          · rw [hadd, List.mem_append, List.mem_singleton] at hrows
            rcases hrows with hold | hnewc
            · exact absurd hold hnew
            · subst hnewc
              exact ⟨req, rfl, hssid, h1, h2, h3, by omega, by omega⟩
  · intro hstatus
    cases userID with
    | none =>
      simp [WifiHandler.Create] at hstatus
    | some uid =>
      cases decoded with
      | none =>
        simp [WifiHandler.Create, ShouldBindJSON] at hstatus
      | some req =>
        cases hv : validateStruct req with
        | error err =>
          simp [WifiHandler.Create, ShouldBindJSON, hv] at hstatus
        | ok u =>
          cases u
          exact ⟨req, rfl, validateStruct_ok req hv⟩

/-- C18 on concrete requests: an SSID of 33 characters is answered 400 with the table
as it was, and an SSID of 32 characters is stored. -/
theorem handler_Create_length_limits_witness :
    ((WifiHandler.Create toyLib testService testWorld (some 7)
        (some { SSID := "123456789012345678901234567890123", Password := "secret",
                SecurityType := SecurityWPA2, IsHidden := false })).2 = testWorld ∧
      (WifiHandler.Create toyLib testService testWorld (some 7)
        (some { SSID := "123456789012345678901234567890123", Password := "secret",
                SecurityType := SecurityWPA2, IsHidden := false })).1.status = 400) ∧
    (WifiHandler.Create toyLib testService testWorld (some 7)
        (some { SSID := "12345678901234567890123456789012", Password := "secret",
                SecurityType := SecurityWPA2, IsHidden := false })).1.status = 201 ∧
    ((WifiHandler.Create toyLib testService testWorld (some 7)
        (some { SSID := "12345678901234567890123456789012", Password := "secret",
                SecurityType := SecurityWPA2, IsHidden := false })).2.rows.map
      fun c => c.SSID) = ["12345678901234567890123456789012"] :=
  ⟨⟨((handler_Create_length_limits toyLib testService testWorld (some 7)
        (some { SSID := "123456789012345678901234567890123", Password := "secret",
                SecurityType := SecurityWPA2, IsHidden := false })).1 _ rfl
        (Or.inr (Or.inl (by decide)))).1,
      ((handler_Create_length_limits toyLib testService testWorld (some 7)
        (some { SSID := "123456789012345678901234567890123", Password := "secret",
                SecurityType := SecurityWPA2, IsHidden := false })).1 _ rfl
        (Or.inr (Or.inl (by decide)))).2 rfl⟩,
    by decide, by decide⟩

set_option maxRecDepth 100000 in
/-- C18 as stated fails. `WifiService.Create` itself checks no length: called with an
empty SSID and a password of 64 characters it succeeds and stores the credential.
And the handler counts characters, not bytes: an SSID of 32 two-byte characters,
64 bytes long, is answered 201 and stored. -/
theorem Create_length_counterexample :
    ((testService.Create toyLib testWorld 7
        { SSID := ""
          Password := "0123456789012345678901234567890123456789012345678901234567890123"
          SecurityType := SecurityWPA2
          IsHidden := false }).2.rows.map fun c => (c.UserID, c.SSID, c.SSID.length))
      = [(7, "", 0)] ∧
    "0123456789012345678901234567890123456789012345678901234567890123".length = 64 ∧
    (stringToBytes "éééééééééééééééééééééééééééééééé").length = 64 ∧
    (WifiHandler.Create toyLib testService testWorld (some 7)
        (some { SSID := "éééééééééééééééééééééééééééééééé", Password := "secret",
                SecurityType := SecurityWPA2, IsHidden := false })).1.status = 201 ∧
    ((WifiHandler.Create toyLib testService testWorld (some 7)
        (some { SSID := "éééééééééééééééééééééééééééééééé", Password := "secret",
                SecurityType := SecurityWPA2, IsHidden := false })).2.rows.map
      fun c => (stringToBytes c.SSID).length) = [64] := by
  decide

end handlers

/-! ## Credential cipher: nonces of successive calls -/

namespace base64

/-- Different bytes have different encodings. -/
theorem EncodeToString_injective (a b : List Byte) (h : EncodeToString a = EncodeToString b) :
    a = b := by
  have ha := DecodeString_EncodeToString a
  rw [h, DecodeString_EncodeToString] at ha
  cases ha
  rfl

end base64

namespace services

open models

/-- The random bytes left after `encryptPassword` has sealed a non-empty password
under a 32-byte key: the twelve bytes of the nonce are consumed. -/
theorem encryptPassword_rand (L : Lib) (s : WifiService) (w : World) (password : String)
    (hkey : s.encryptionKey.length = 32) (hp : password ≠ "") (hrand : 12 ≤ w.rand.length) :
    (s.encryptPassword L w password).2.rand = w.rand.drop 12 := by
  simp [WifiService.encryptPassword, hp, aesNewCipher_of_length _ hkey, cipherNewGCM, readFull,
    GCM.NonceSize, World.log, hrand]

/-- C19, as the code has it: two successive `encryptPassword` calls on the same
non-empty password under the same 32-byte key each take their own twelve bytes from
the random source, the second call the twelve bytes after those of the first, and
return `base64(nonce ++ seal(nonce, password))` for them; the two blobs are equal
exactly when the source delivered the same nonce twice. -/
theorem encryptPassword_twice (L : Lib) (s : WifiService) (w : World) (password : String)
    (hkey : s.encryptionKey.length = 32) (hp : password ≠ "") (hrand : 24 ≤ w.rand.length) :
    (s.encryptPassword L w password).1
      = .ok (base64.EncodeToString (w.rand.take 12 ++
          L.gcmSeal s.encryptionKey (w.rand.take 12) (stringToBytes password))) ∧
    (s.encryptPassword L (s.encryptPassword L w password).2 password).1
      = .ok (base64.EncodeToString ((w.rand.drop 12).take 12 ++
          L.gcmSeal s.encryptionKey ((w.rand.drop 12).take 12) (stringToBytes password))) ∧
    (s.encryptPassword L (s.encryptPassword L w password).2 password).2.rand = w.rand.drop 24 ∧
    ((s.encryptPassword L w password).1
        = (s.encryptPassword L (s.encryptPassword L w password).2 password).1
      ↔ w.rand.take 12 = (w.rand.drop 12).take 12) := by
  have h1 := encryptPassword_of_nonempty L s w password hkey hp (by omega)
  have hr1 := encryptPassword_rand L s w password hkey hp (by omega)
  have hlen2 : 12 ≤ (s.encryptPassword L w password).2.rand.length := by
    rw [hr1, List.length_drop]
    omega
  have h2 := encryptPassword_of_nonempty L s (s.encryptPassword L w password).2 password hkey hp
    hlen2
  have hr2 := encryptPassword_rand L s (s.encryptPassword L w password).2 password hkey hp hlen2
  rw [hr1] at h2 hr2
  refine ⟨h1, h2, ?_, ?_⟩
  · rw [hr2, List.drop_drop]
  · rw [h1, h2]
    constructor
    · intro h
      have hb := base64.EncodeToString_injective _ _ (Except.ok.inj h)
      have hl1 : (w.rand.take 12).length = 12 := by
        rw [List.length_take]
        omega
      have hl2 : ((w.rand.drop 12).take 12).length = 12 := by
        rw [List.length_take, List.length_drop]
        omega
      exact (List.append_inj hb (by rw [hl1, hl2])).1
    · intro h
      rw [h]

/-- C19 on the test environment: the source delivers two different nonces and the two
blobs of `secret` differ. -/
theorem encryptPassword_twice_witness :
    (testService.encryptPassword toyLib testWorld "secret").1
      = .ok "BwECAwQFBgcICQoLqpyaqZyrNzc3Nzc3Nzc3Nzc3Nzc3Nw==" ∧
    (testService.encryptPassword toyLib
        (testService.encryptPassword toyLib testWorld "secret").2 "secret").1
      = .ok "yA0ODxAREhMUFRYXa11bal1s+Pj4+Pj4+Pj4+Pj4+Pj4+A==" ∧
    ¬ (testService.encryptPassword toyLib testWorld "secret").1
        = (testService.encryptPassword toyLib
            (testService.encryptPassword toyLib testWorld "secret").2 "secret").1 :=
  ⟨by decide, by decide,
    fun h => absurd
      ((encryptPassword_twice toyLib testService testWorld "secret" (by decide) (by decide)
        (by decide)).2.2.2.mp h) (by decide)⟩

/-- C19 as stated fails: when the random source delivers the same twelve bytes twice,
two calls on the same password return the same blob. -/
theorem encryptPassword_twice_counterexample :
    (testService.encryptPassword toyLib repeatingWorld "secret").1
      = (testService.encryptPassword toyLib
          (testService.encryptPassword toyLib repeatingWorld "secret").2 "secret").1 ∧
    (testService.encryptPassword toyLib repeatingWorld "secret").1
      = .ok "CQkJCQkJCQkJCQkJrJ6cq56tOTk5OTk5OTk5OTk5OTk5OQ==" := by
  decide

end services

/-! ## Credential cipher: changed blobs -/

namespace services

open models

/-- A change that passes the computed check is detected by the cipher. -/
theorem detectsChange_of_check (L : Lib) (key : List Byte) (blob : String) (i : Nat) (c : Char)
    (h : changeCheck L key blob i c = true) : L.DetectsChange key blob i c := by
  intro bytes hdec hne nonce ciphertext hlen hsplit
  simp only [changeCheck, hdec, hne, false_or, decide_eq_true_eq] at h
  rw [hsplit, List.take_left' hlen, List.drop_left' hlen] at h
  exact h

set_option maxRecDepth 1000000 in
/-- The stand-in cipher detects a change of any one of the 48 characters of the blob
of `secret`, both to the letter `A` and to a character outside the alphabet. -/
theorem checkedLib_detects_each_position (i : Nat) (hi : i < 48) :
    checkedLib.DetectsChange testService.encryptionKey
      (sealedBlob checkedLib testService testWorld "secret") i 'A' ∧
    checkedLib.DetectsChange testService.encryptionKey
      (sealedBlob checkedLib testService testWorld "secret") i '-' := by
  have h : ∀ j, j < 48 →
      changeCheck checkedLib testService.encryptionKey
        (sealedBlob checkedLib testService testWorld "secret") j 'A' = true ∧
      changeCheck checkedLib testService.encryptionKey
        (sealedBlob checkedLib testService testWorld "secret") j '-' = true := by
    decide
  exact ⟨detectsChange_of_check _ _ _ _ _ (h i hi).1, detectsChange_of_check _ _ _ _ _ (h i hi).2⟩

end services

/-! ## QR payload string: one string, one credential -/

namespace services

open models

/-- An escaped field ends at the first semicolon that is not escaped: two escaped
texts, each followed by a semicolon and more, are equal only for equal texts and
equal remainders. -/
theorem escaped_field_inj (l1 l2 r1 r2 : List Char)
    (h : (l1.flatMap fun c => if c ∈ ['\\', ';', ',', ':', '"'] then ['\\', c] else [c])
        ++ ';' :: r1
      = (l2.flatMap fun c => if c ∈ ['\\', ';', ',', ':', '"'] then ['\\', c] else [c])
        ++ ';' :: r2) :
    l1 = l2 ∧ r1 = r2 := by
  induction l1 generalizing l2 with
  | nil =>
    cases l2 with
    | nil =>
      simp only [List.flatMap_nil, List.nil_append, List.cons.injEq, true_and] at h
      exact ⟨rfl, h⟩
    | cons c l2 =>
      exfalso
      simp only [List.flatMap_nil, List.nil_append, List.flatMap_cons] at h
      by_cases hc : c ∈ ['\\', ';', ',', ':', '"']
      · simp only [hc, if_true, List.cons_append, List.nil_append, List.cons.injEq] at h
        exact absurd h.1 (by decide)
      · simp only [hc, if_false, List.cons_append, List.nil_append, List.cons.injEq] at h
        apply hc
        rw [← h.1]
        decide
  | cons a l1 ih =>
    cases l2 with
    | nil =>
      exfalso
      simp only [List.flatMap_nil, List.nil_append, List.flatMap_cons] at h
      by_cases ha : a ∈ ['\\', ';', ',', ':', '"']
      · simp only [ha, if_true, List.cons_append, List.nil_append, List.cons.injEq] at h
        exact absurd h.1 (by decide)
      · simp only [ha, if_false, List.cons_append, List.nil_append, List.cons.injEq] at h
        apply ha
        rw [h.1]
        decide
    | cons c l2 =>
      simp only [List.flatMap_cons] at h
      by_cases ha : a ∈ ['\\', ';', ',', ':', '"']
      · by_cases hc : c ∈ ['\\', ';', ',', ':', '"']
        · simp only [ha, hc, if_true, List.cons_append, List.nil_append, List.cons.injEq,
            true_and] at h
          obtain ⟨hac, hrest⟩ := h
          obtain ⟨hl, hr⟩ := ih l2 hrest
          exact ⟨by rw [hac, hl], hr⟩
        · exfalso
          simp only [ha, hc, if_true, if_false, List.cons_append, List.nil_append,
            List.cons.injEq] at h
          apply hc
          rw [← h.1]
          decide
      · by_cases hc : c ∈ ['\\', ';', ',', ':', '"']
        · exfalso
          simp only [ha, hc, if_true, if_false, List.cons_append, List.nil_append,
            List.cons.injEq] at h
          apply ha
          rw [h.1]
          decide
        · simp only [ha, hc, if_false, List.cons_append, List.nil_append, List.cons.injEq] at h
          obtain ⟨hac, hrest⟩ := h
          obtain ⟨hl, hr⟩ := ih l2 hrest
          exact ⟨by rw [hac, hl], hr⟩

/-- The characters of the payload string for a security class that needs no
escaping, grouped field by field. -/
theorem buildWiFiString_data (ssid password : String) (security : SecurityType)
    (hidden : Bool)
    (hsec : security = SecurityWPA ∨ security = SecurityWPA2 ∨ security = SecurityWEP) :
    (buildWiFiString ssid password security hidden).data
      = ['W', 'I', 'F', 'I', ':', 'T', ':'] ++
        ((security.data.flatMap fun c =>
            if c ∈ ['\\', ';', ',', ':', '"'] then ['\\', c] else [c]) ++
          ';' :: ('S' :: ':' ::
            ((ssid.data.flatMap fun c =>
                if c ∈ ['\\', ';', ',', ':', '"'] then ['\\', c] else [c]) ++
              ';' :: ('P' :: ':' ::
                ((password.data.flatMap fun c =>
                    if c ∈ ['\\', ';', ',', ':', '"'] then ['\\', c] else [c]) ++
                  ';' :: ('H' :: ':' ::
                    ((if hidden then "true" else "").data ++ [';', ';']))))))) := by
  have hplain : (security.data.flatMap fun c =>
      if c ∈ ['\\', ';', ',', ':', '"'] then ['\\', c] else [c]) = security.data := by
    apply specEscape_of_plain
    rcases hsec with h | h | h <;> rw [h] <;> decide
  have hne : security ≠ SecurityNone := by
    rcases hsec with h | h | h <;> rw [h] <;> decide
  have h1 : ("WIFI:T:" : String).data = ['W', 'I', 'F', 'I', ':', 'T', ':'] := rfl
  have h2 : (";S:" : String).data = [';', 'S', ':'] := rfl
  have h3 : (";P:" : String).data = [';', 'P', ':'] := rfl
  have h4 : (";H:" : String).data = [';', 'H', ':'] := rfl
  have h5 : (";;" : String).data = [';', ';'] := rfl
  rw [hplain]
  simp only [buildWiFiString, hne, if_false, escapeWiFiString_eq_specEscape, specEscape,
    String.data_append, h1, h2, h3, h4, h5, List.append_assoc, List.cons_append,
    List.nil_append]

/-- C20: `buildWiFiString` is injective on secured inputs: for security classes among
WPA, WPA2 and WEP, equal payload strings come only from equal security class, SSID,
password and hidden flag. -/
theorem buildWiFiString_injective (s1 p1 s2 p2 : String) (t1 t2 : SecurityType)
    (h1 h2 : Bool)
    (ht1 : t1 = SecurityWPA ∨ t1 = SecurityWPA2 ∨ t1 = SecurityWEP)
    (ht2 : t2 = SecurityWPA ∨ t2 = SecurityWPA2 ∨ t2 = SecurityWEP)
    (heq : buildWiFiString s1 p1 t1 h1 = buildWiFiString s2 p2 t2 h2) :
    t1 = t2 ∧ s1 = s2 ∧ p1 = p2 ∧ h1 = h2 := by
  have hd := congrArg String.data heq
  rw [buildWiFiString_data s1 p1 t1 h1 ht1, buildWiFiString_data s2 p2 t2 h2 ht2] at hd
  have hd1 := List.append_cancel_left hd
  obtain ⟨ht, hrest1⟩ := escaped_field_inj _ _ _ _ hd1
  simp only [List.cons.injEq, true_and] at hrest1
  obtain ⟨hs, hrest2⟩ := escaped_field_inj _ _ _ _ hrest1
  simp only [List.cons.injEq, true_and] at hrest2
  obtain ⟨hp, hrest3⟩ := escaped_field_inj _ _ _ _ hrest2
  simp only [List.cons.injEq, true_and] at hrest3
  have hh := List.append_cancel_right hrest3
  refine ⟨String.ext ht, String.ext hs, String.ext hp, ?_⟩
  cases h1 <;> cases h2 <;> first | rfl | (exfalso; revert hh; decide)

/-- C20 on concrete inputs: the payload of `Home;Net` with password `p:a"ss` is the
payload of no other SSID and password, such as `Home` with a password that begins
with `Net;P:`. -/
theorem buildWiFiString_injective_witness :
    buildWiFiString "Home;Net" "p:a\"ss" SecurityWPA2 false
      = "WIFI:T:WPA2;S:Home\\;Net;P:p\\:a\\\"ss;H:;;" ∧
    ((SecurityWPA2 = SecurityWPA2 ∧ "Home;Net" = "Home;Net" ∧ "p:a\"ss" = "p:a\"ss" ∧
      false = false)) ∧
    buildWiFiString "Home" "Net;P:p:a\"ss" SecurityWPA2 false
      ≠ buildWiFiString "Home;Net" "p:a\"ss" SecurityWPA2 false :=
  ⟨by decide,
    buildWiFiString_injective "Home;Net" "p:a\"ss" "Home;Net" "p:a\"ss" SecurityWPA2
      SecurityWPA2 false false (Or.inr (Or.inl rfl)) (Or.inr (Or.inl rfl)) rfl,
    fun h => absurd
      (buildWiFiString_injective "Home" "Net;P:p:a\"ss" "Home;Net" "p:a\"ss" SecurityWPA2
        SecurityWPA2 false false (Or.inr (Or.inl rfl)) (Or.inr (Or.inl rfl)) h).2.1
      (by decide)⟩

end services

/-! ## QR payload string: length -/

namespace services

open models

/-- The escaping adds one character for each character it escapes. -/
theorem specEscape_length (l : List Char) :
    (l.flatMap fun c => if c ∈ ['\\', ';', ',', ':', '"'] then ['\\', c] else [c]).length
      = l.length + l.countP (fun c => c ∈ ['\\', ';', ',', ':', '"']) := by
  induction l with
  | nil => rfl
  | cons c l ih =>
    rw [List.flatMap_cons, List.length_append, ih, List.length_cons]
    by_cases hc : c ∈ ['\\', ';', ',', ':', '"']
    · rw [List.countP_cons_of_pos _ _ (by simpa using hc)]
      simp only [hc, if_true, List.length_cons, List.length_nil]
      omega
    · rw [List.countP_cons_of_neg _ _ (by simpa using hc)]
      simp only [hc, if_false, List.length_cons, List.length_nil]
      omega

/-- The length of an escaped text, and its bound by twice the length of the text. -/
theorem escapeWiFiString_length_eq (s : String) :
    (escapeWiFiString s).length
        = s.length + s.data.countP (fun c => c ∈ ['\\', ';', ',', ':', '"']) ∧
    (escapeWiFiString s).length ≤ 2 * s.length := by
  have hlen : (escapeWiFiString s).length
      = s.length + s.data.countP (fun c => c ∈ ['\\', ';', ',', ':', '"']) := by
    rw [escapeWiFiString_eq_specEscape]
    exact specEscape_length s.data
  have hcount := List.countP_le_length (fun c => decide (c ∈ ['\\', ';', ',', ':', '"']))
    (l := s.data)
  refine ⟨hlen, ?_⟩
  rw [hlen]
  have hsl : s.length = s.data.length := rfl
  omega

/-- C21: the length of `escapeWiFiString s` is the length of `s` plus the number of
occurrences of `\ ; , : "` in `s`, so at most twice the length of `s`; hence for an
SSID of at most 32 characters, a password of at most 63 characters and a security
class among WPA, WPA2, WEP and nopass, `buildWiFiString` returns at most 216
characters. -/
theorem buildWiFiString_length (ssid password : String) (security : SecurityType)
    (hidden : Bool) (hssid : ssid.length ≤ 32) (hpassword : password.length ≤ 63)
    (hsec : security = SecurityWPA ∨ security = SecurityWPA2 ∨ security = SecurityWEP ∨
      security = SecurityNone) :
    (∀ s : String,
      (escapeWiFiString s).length
          = s.length + s.data.countP (fun c => c ∈ ['\\', ';', ',', ':', '"']) ∧
      (escapeWiFiString s).length ≤ 2 * s.length) ∧
    (buildWiFiString ssid password security hidden).length ≤ 216 := by
  refine ⟨escapeWiFiString_length_eq, ?_⟩
  have h1 := (escapeWiFiString_length_eq ssid).2
  have h2 := (escapeWiFiString_length_eq password).2
  have hflag : (if hidden then "true" else "").length ≤ 4 := by
    cases hidden <;> decide
  have l1 : ("WIFI:T:" : String).length = 7 := rfl
  have l2 : (";S:" : String).length = 3 := rfl
  have l3 : (";P:" : String).length = 3 := rfl
  have l4 : (";H:" : String).length = 3 := rfl
  have l5 : (";;" : String).length = 2 := rfl
  have l6 : ("nopass" : String).length = 6 := rfl
  have l7 : ("" : String).length = 0 := rfl
  rcases hsec with h | h | h | h
  · have hne : security ≠ SecurityNone := by rw [h]; decide
    have hl : security.length = 3 := by rw [h]; rfl
    simp only [buildWiFiString, hne, if_false, String.length_append, l1, l2, l3, l4, l5, hl]
    omega
  · have hne : security ≠ SecurityNone := by rw [h]; decide
    have hl : security.length = 4 := by rw [h]; rfl
    simp only [buildWiFiString, hne, if_false, String.length_append, l1, l2, l3, l4, l5, hl]
    omega
  · have hne : security ≠ SecurityNone := by rw [h]; decide
    have hl : security.length = 3 := by rw [h]; rfl
    simp only [buildWiFiString, hne, if_false, String.length_append, l1, l2, l3, l4, l5, hl]
    omega
  · simp only [buildWiFiString, h, if_true, String.length_append, l1, l2, l3, l4, l5, l6, l7]
    omega

set_option maxRecDepth 100000 in
/-- C21 on concrete inputs: the specification's example has 39 characters, and the
bound is reached by an SSID of 32 and a password of 63 semicolons under WPA2 for a
hidden network. -/
theorem buildWiFiString_length_witness :
    ((∀ s : String,
        (escapeWiFiString s).length
            = s.length + s.data.countP (fun c => c ∈ ['\\', ';', ',', ':', '"']) ∧
        (escapeWiFiString s).length ≤ 2 * s.length) ∧
      (buildWiFiString "Home;Net" "p:a\"ss" SecurityWPA2 false).length ≤ 216) ∧
    (escapeWiFiString "Home;Net").length = 9 ∧
    (buildWiFiString "Home;Net" "p:a\"ss" SecurityWPA2 false).length = 39 ∧
    (buildWiFiString ";;;;;;;;;;;;;;;;;;;;;;;;;;;;;;;;"
      ";;;;;;;;;;;;;;;;;;;;;;;;;;;;;;;;;;;;;;;;;;;;;;;;;;;;;;;;;;;;;;;"
      SecurityWPA2 true).length = 216 :=
  ⟨buildWiFiString_length "Home;Net" "p:a\"ss" SecurityWPA2 false (by decide) (by decide)
      (Or.inr (Or.inl rfl)),
    by decide, by decide, by decide⟩

end services
